import Mathlib

/-!
Verification development for the content-generation core of the
MCS capstone backend (LLM client, JSON recovery pipeline, content
orchestrators).  Python strings are embedded as lists of characters
(`Str`), Python `None`-able values as `Option`, raised exceptions as
`Except`, and module-level singleton state as an explicit state record.
-/

set_option maxHeartbeats 1000000

/-- Python strings, embedded as lists of characters. -/
abbrev Str := List Char

/-- Coerce a Lean string literal to the embedding type. -/
def strOf (s : String) : Str := s.data

/-- Python `str.strip` whitespace class (space, tab, newline, CR, VT, FF). -/
def isSpaceB (c : Char) : Bool :=
  c == ' ' || c == '\t' || c == '\n' || c == '\r' || c == '\x0b' || c == '\x0c'

/-- Python `str.lstrip()`. -/
def pyLStrip (l : Str) : Str := l.dropWhile isSpaceB

/-- Python `str.rstrip()`. -/
def pyRStrip (l : Str) : Str := (l.reverse.dropWhile isSpaceB).reverse

/-- Python `str.strip()`. -/
def pyStrip (l : Str) : Str := pyRStrip (pyLStrip l)

/-- Boolean prefix test (Python `str.startswith`). -/
def isPre : Str → Str → Bool
  | [], _ => true
  | _ :: _, [] => false
  | a :: as, b :: bs => a == b && isPre as bs

/-- Python `str.endswith`. -/
def pyEndsWith (pat l : Str) : Bool := isPre pat.reverse l.reverse

/-- Index of the first occurrence of `pat` in `l` (Python `str.find`,
with `none` for `-1`). -/
def findSub (pat : Str) : Str → Option Nat
  | [] => if isPre pat [] then some 0 else none
  | c :: l => if isPre pat (c :: l) then some 0 else (findSub pat l).map (· + 1)

/-- Python `pat in l` substring containment. -/
def containsSub (pat l : Str) : Bool := (findSub pat l).isSome

/-- Python `l.find(pat, start)`. -/
def pyFindFrom (pat l : Str) (start : Nat) : Option Nat :=
  (findSub pat (l.drop start)).map (· + start)

/-- Python `l.rfind(pat)`: index of the last occurrence. -/
def pyRFind (pat l : Str) : Option Nat :=
  ((List.range (l.length + 1)).filter (fun i => isPre pat (l.drop i))).getLast?

/-- Python slice `l[a:b]`. -/
def pySlice (l : Str) (a b : Nat) : Str := (l.drop a).take (b - a)

/-- Python `str.lower`, modelled over the ASCII range. -/
def pyLower (l : Str) : Str := l.map Char.toLower

/-- Worker for Python `str.split(sep)` with a non-empty separator:
scan left to right, splitting at each non-overlapping occurrence. -/
def pySplitAux (sep : Str) : Str → Str → List Str
  | [], acc => [acc.reverse]
  | c :: rest, acc =>
    if isPre sep (c :: rest) then
      acc.reverse :: pySplitAux sep (rest.drop (sep.length - 1)) []
    else
      pySplitAux sep rest (c :: acc)
termination_by l _ => l.length
decreasing_by
  · simp only [List.length_drop, List.length_cons]; omega
  · simp only [List.length_cons]; omega

/-- Python `str.split(sep)` (non-empty separator). -/
def pySplit (sep l : Str) : List Str := pySplitAux sep l []

/-- Worker for Python `str.replace(pat, rep)` with a non-empty pattern:
replace non-overlapping occurrences left to right. -/
def pyReplaceAux (pat rep : Str) : Str → Str
  | [] => []
  | c :: rest =>
    if isPre pat (c :: rest) then
      rep ++ pyReplaceAux pat rep (rest.drop (pat.length - 1))
    else
      c :: pyReplaceAux pat rep rest
termination_by l => l.length
decreasing_by
  · simp only [List.length_drop, List.length_cons]; omega
  · simp only [List.length_cons]; omega

/-- Python `str.replace(pat, rep)` (non-empty pattern). -/
def pyReplace (pat rep l : Str) : Str := pyReplaceAux pat rep l

/-- True when the string contains no backtick character. -/
def bqFree (l : Str) : Bool := l.all (fun c => !(c == '`'))

/-- Python truthiness of an optional string (`None` and `""` are falsy). -/
def truthyO : Option Str → Bool
  | none => false
  | some s => !s.isEmpty

/-- Python `a or b` on optional strings, returning the raw string value. -/
def pyOrD (a : Option Str) (b : Str) : Str :=
  match a with
  | some s => if s.isEmpty then b else s
  | none => b

-- Basic facts about the string primitives.

theorem isPre_append_self (p r : Str) : isPre p (p ++ r) = true := by
  induction p with
  | nil => simp [isPre]
  | cons c cs ih => simpa [isPre] using ih

theorem isPre_nil_iff (p : Str) : isPre p [] = true ↔ p = [] := by
  cases p <;> simp [isPre]

theorem findSub_append_of_bqFree {a : Str} (ha : bqFree a = true) (p r : Str) :
    findSub ('`' :: p) (a ++ r) = (findSub ('`' :: p) r).map (· + a.length) := by
  induction a with
  | nil =>
    simp only [List.nil_append, List.length_nil]
    cases h : findSub ('`' :: p) r <;> simp
  | cons c cs ih =>
    have hc : (c == '`') = false := by
      have := (List.all_eq_true.mp ha) c (by simp)
      simpa using this
    have hcs : bqFree cs = true := by
      refine List.all_eq_true.mpr ?_
      intro x hx
      exact (List.all_eq_true.mp ha) x (by simp [hx])
    have hpre : isPre ('`' :: p) (c :: (cs ++ r)) = false := by
      simp [isPre]
      intro h
      rw [h] at hc
      simp at hc
    show (if isPre ('`' :: p) (c :: (cs ++ r)) = true then some 0
        else (findSub ('`' :: p) (cs ++ r)).map (· + 1)) = _
    rw [hpre]
    simp only [Bool.false_eq_true, if_false]
    rw [ih hcs]
    rcases h : findSub ('`' :: p) r with _ | v
    · simp
    · simp only [Option.map_some, List.length_cons]
      exact congrArg some (by show v + cs.length + 1 = v + (cs.length + 1); omega)

theorem findSub_none_of_bqFree {a : Str} (ha : bqFree a = true) (p : Str) :
    findSub ('`' :: p) a = none := by
  have := findSub_append_of_bqFree ha p []
  rw [List.append_nil] at this
  rw [this]
  simp [findSub, isPre]

theorem containsSub_false_of_bqFree {a : Str} (ha : bqFree a = true) (p : Str) :
    containsSub ('`' :: p) a = false := by
  simp [containsSub, findSub_none_of_bqFree ha]

theorem length_dropWhile_le' (p : Char → Bool) (l : Str) :
    (l.dropWhile p).length ≤ l.length := by
  induction l with
  | nil => simp
  | cons c rest ih =>
    rw [List.dropWhile_cons]
    by_cases hc : p c
    · rw [if_pos hc]; simp; omega
    · rw [if_neg hc]

theorem dropWhile_eq_self_of_length {p : Char → Bool} {l : Str}
    (h : (l.dropWhile p).length = l.length) : l.dropWhile p = l := by
  induction l with
  | nil => simp
  | cons c rest ih =>
    by_cases hc : p c
    · exfalso
      rw [List.dropWhile_cons, if_pos hc] at h
      have := length_dropWhile_le' p rest
      simp [List.length_cons] at h
      omega
    · rw [List.dropWhile_cons, if_neg hc]

theorem pyLStrip_eq_self_of_strip {t : Str} (h : pyStrip t = t) : pyLStrip t = t := by
  have h1 : (pyLStrip t).length ≤ t.length := length_dropWhile_le' _ _
  have h2 : (pyRStrip (pyLStrip t)).length ≤ (pyLStrip t).length := by
    simpa [pyRStrip] using length_dropWhile_le' isSpaceB (pyLStrip t).reverse
  have h3 : (pyStrip t).length = t.length := by rw [h]
  have h4 : (pyLStrip t).length = t.length := by
    simp only [pyStrip] at h3; omega
  exact dropWhile_eq_self_of_length h4

theorem pyRStrip_eq_self_of_strip {t : Str} (h : pyStrip t = t) : pyRStrip t = t := by
  have hl := pyLStrip_eq_self_of_strip h
  calc pyRStrip t = pyRStrip (pyLStrip t) := by rw [hl]
    _ = t := h

theorem head_not_space_of_lstrip {c : Char} {l : Str}
    (h : pyLStrip (c :: l) = c :: l) : isSpaceB c = false := by
  by_contra hc
  simp only [Bool.not_eq_false] at hc
  rw [pyLStrip, List.dropWhile_cons, if_pos hc] at h
  have := length_dropWhile_le' isSpaceB l
  have := congrArg List.length h
  simp [pyLStrip] at this
  omega

theorem pyLStrip_cons_ws {c : Char} (hc : isSpaceB c = true) (l : Str) :
    pyLStrip (c :: l) = pyLStrip l := by
  simp [pyLStrip, List.dropWhile_cons, hc]

theorem pyRStrip_append_ws {c : Char} (hc : isSpaceB c = true) (l : Str) :
    pyRStrip (l ++ [c]) = pyRStrip l := by
  simp [pyRStrip, List.reverse_append, List.dropWhile_cons, hc]

theorem pyLStrip_append_of_ne {l : Str} (h : pyLStrip l = l) (hne : l ≠ []) (m : Str) :
    pyLStrip (l ++ m) = l ++ m := by
  cases l with
  | nil => exact absurd rfl hne
  | cons c rest =>
    have hc := head_not_space_of_lstrip h
    simp [pyLStrip, List.dropWhile_cons, hc]

theorem dropWhile_append_of_all {p : Char → Bool} {a : Str}
    (ha : ∀ c ∈ a, p c = true) (b : Str) :
    (a ++ b).dropWhile p = b.dropWhile p := by
  induction a with
  | nil => simp
  | cons c rest ih =>
    rw [List.cons_append, List.dropWhile_cons, if_pos (ha c (by simp))]
    exact ih (fun x hx => ha x (by simp [hx]))

theorem pyRStrip_append_of_strip {t : Str} (h : pyRStrip t = t) {m : Str}
    (hm : ∀ c ∈ m, isSpaceB c = true) : pyRStrip (t ++ m) = t := by
  have : (t ++ m).reverse.dropWhile isSpaceB = t.reverse.dropWhile isSpaceB := by
    rw [List.reverse_append]
    exact dropWhile_append_of_all (fun c hc => hm c (by simpa using hc)) t.reverse
  calc pyRStrip (t ++ m) = (t.reverse.dropWhile isSpaceB).reverse := by
        rw [pyRStrip, this]
    _ = t := h

/-- Strip a whitespace-framed copy of an already-stripped string. -/
theorem pyStrip_frame {t : Str} (h : pyStrip t = t)
    {pre post : Str} (hpre : ∀ c ∈ pre, isSpaceB c = true)
    (hpost : ∀ c ∈ post, isSpaceB c = true) :
    pyStrip (pre ++ t ++ post) = t := by
  have hL : pyLStrip (pre ++ t ++ post) = pyLStrip (t ++ post) := by
    rw [List.append_assoc]
    exact dropWhile_append_of_all hpre (t ++ post)
  by_cases ht : t = []
  · subst ht
    have hLp : pyLStrip post = [] := by
      have := dropWhile_append_of_all hpost ([] : Str)
      simpa [pyLStrip] using this
    simp only [pyStrip, hL, List.nil_append, hLp]
    simp [pyRStrip]
  · have hlt : pyLStrip t = t := pyLStrip_eq_self_of_strip h
    have hL2 : pyLStrip (t ++ post) = t ++ post := pyLStrip_append_of_ne hlt ht post
    rw [pyStrip, hL, hL2]
    exact pyRStrip_append_of_strip (pyRStrip_eq_self_of_strip h) hpost

/-!
JSON documents and a model of Python `json.loads` (the standard-library
direct-parse stage used by all three pipelines; it is not part of the
repository, so it is modelled: a recursive-descent parser for objects,
arrays, strings with the standard single-character escapes, integers,
and the three literals.  `\uXXXX` escapes and fractional/exponent
number forms are outside the model; no claim depends on them).
-/

inductive Json : Type where
  | null : Json
  | bool : Bool → Json
  | num : Int → Json
  | str : Str → Json
  | arr : List Json → Json
  | obj : List (Str × Json) → Json

/-- JSON whitespace accepted between tokens by `json.loads`. -/
def isJsonWs (c : Char) : Bool :=
  c == ' ' || c == '\t' || c == '\n' || c == '\r'

/-- Skip inter-token whitespace. -/
def jskip (l : Str) : Str := l.dropWhile isJsonWs

/-- Decode one escape character of a JSON string. -/
def escChar : Char → Option Char
  | 'n' => some '\n'
  | 't' => some '\t'
  | 'r' => some '\r'
  | 'b' => some '\x08'
  | 'f' => some '\x0c'
  | '"' => some '"'
  | '\\' => some '\\'
  | '/' => some '/'
  | _ => none

/-- Parse the body of a JSON string after the opening quote; returns the
decoded text and the remainder after the closing quote. -/
def parseJStr : Str → Option (Str × Str)
  | [] => none
  | c :: rest =>
    if c == '"' then some ([], rest)
    else if c == '\\' then
      match rest with
      | [] => none
      | e :: rest2 =>
        match escChar e with
        | some ec => (parseJStr rest2).map (fun p => (ec :: p.1, p.2))
        | none => none
    else if c.val < 32 then none
    else (parseJStr rest).map (fun p => (c :: p.1, p.2))

/-- Digits of a number prefix. -/
def natOfDigits (ds : Str) : Nat :=
  ds.foldl (fun acc c => acc * 10 + (c.toNat - '0'.toNat)) 0

/-- Parse an integer JSON number (model boundary: fraction/exponent
forms are rejected). -/
def parseJNum (l : Str) : Option (Int × Str) :=
  let (neg, l') := match l with
    | '-' :: r => (true, r)
    | _ => (false, l)
  let ds := l'.takeWhile Char.isDigit
  let rest := l'.dropWhile Char.isDigit
  if ds.isEmpty then none
  else
    match rest with
    | '.' :: _ => none
    | 'e' :: _ => none
    | 'E' :: _ => none
    | _ =>
      let n : Int := Int.ofNat (natOfDigits ds)
      some (if neg then -n else n, rest)

mutual

/-- Parse one JSON value (fuel-bounded recursive descent). -/
def parseValue : Nat → Str → Option (Json × Str)
  | 0, _ => none
  | fuel + 1, l =>
    let l := jskip l
    if isPre (strOf "null") l then some (.null, l.drop 4)
    else if isPre (strOf "true") l then some (.bool true, l.drop 4)
    else if isPre (strOf "false") l then some (.bool false, l.drop 5)
    else
      match l with
      | [] => none
      | c :: rest =>
        if c == '"' then (parseJStr rest).map (fun p => (.str p.1, p.2))
        else if c == '\x7b' then
          match jskip rest with
          | '\x7d' :: r => some (.obj [], r)
          | r => (parseMembers fuel r).map (fun p => (.obj p.1, p.2))
        else if c == '[' then
          match jskip rest with
          | ']' :: r => some (.arr [], r)
          | r => (parseElems fuel r).map (fun p => (.arr p.1, p.2))
        else (parseJNum (c :: rest)).map (fun p => (.num p.1, p.2))

/-- Parse `"key": value` members up to the closing brace. -/
def parseMembers : Nat → Str → Option (List (Str × Json) × Str)
  | 0, _ => none
  | fuel + 1, l =>
    match l with
    | '"' :: r =>
      match parseJStr r with
      | none => none
      | some (key, r2) =>
        match jskip r2 with
        | ':' :: r3 =>
          match parseValue fuel r3 with
          | none => none
          | some (v, r4) =>
            match jskip r4 with
            | ',' :: r5 => (parseMembers fuel (jskip r5)).map
                (fun p => ((key, v) :: p.1, p.2))
            | '\x7d' :: r5 => some ([(key, v)], r5)
            | _ => none
        | _ => none
    | _ => none

/-- Parse array elements up to the closing bracket. -/
def parseElems : Nat → Str → Option (List Json × Str)
  | 0, _ => none
  | fuel + 1, l =>
    match parseValue fuel l with
    | none => none
    | some (v, r) =>
      match jskip r with
      | ',' :: r2 => (parseElems fuel r2).map (fun p => (v :: p.1, p.2))
      | ']' :: r2 => some ([v], r2)
      | _ => none

end

/-- Model of Python `json.loads`: parse a full document, rejecting
trailing garbage. -/
def parseJson (l : Str) : Option Json :=
  match parseValue (l.length + 1) l with
  | some (v, rest) => if jskip rest = [] then some v else none
  | none => none

/-- Python truthiness of a JSON value (`""`, `0`, `[]`, `{}`, `null`,
`false` are falsy). -/
def jtruthy : Json → Bool
  | .null => false
  | .bool b => b
  | .num n => !(n == 0)
  | .str s => !s.isEmpty
  | .arr a => !a.isEmpty
  | .obj m => !m.isEmpty

/-- Python `dict` lookup on a parsed object (last duplicate key wins,
as in `json.loads`). -/
def jlookup (m : List (Str × Json)) (k : Str) : Option Json :=
  (m.reverse.find? (fun p => p.1 == k)).map (·.2)

/-- Python `key in dict`. -/
def jhas (m : List (Str × Json)) (k : Str) : Bool := (jlookup m k).isSome

/-- Exception taxonomy of the embedded code (payload strings of the
Python exceptions are not modelled, only the class reached). -/
inductive PyErr : Type where
  | valueError : PyErr
  | emptyResponse : PyErr
  | badEnvelope : PyErr
  | keyError : PyErr
  | typeError : PyErr
  | jsonError : PyErr
  | httpStatus : Nat → PyErr
  | connectError : PyErr
  | timeout : PyErr
  | notFound : PyErr
  | runtime : PyErr
deriving DecidableEq

/-!
The three JSON-extraction routines, translated from
`word_enhancement_service.enhance_word`, `sentence_generator.generate_sentences`
and `story_generator._parse_story_json`.
-/

/-- Method 1 tail: the stripped interior up to the closing fence marker,
or the whole text when no closing marker follows. -/
def weTail (rt : Str) (start : Nat) : Str :=
  match pyFindFrom (strOf "```") rt start with
  | some e => pyStrip (pySlice rt start e)
  | none => rt

/-- Method 1 of the vocabulary extraction: markdown-fence interior. -/
def weFence (rt : Str) : Str :=
  if containsSub (strOf "```json") rt then
    weTail rt (((findSub (strOf "```json") rt).getD 0) + 7)
  else if containsSub (strOf "```") rt then
    weTail rt (((findSub (strOf "```") rt).getD 0) + 3)
  else rt

/-- Method 2, first half: slice from the first opening brace. -/
def weBraceStart (rt : Str) : Str :=
  if isPre (strOf "\x7b") rt then rt
  else
    match findSub (strOf "\x7b") rt with
    | some i => rt.drop i
    | none => rt

/-- Method 2, second half: slice to the last closing brace. -/
def weBraceEnd (rt : Str) : Str :=
  if pyEndsWith (strOf "\x7d") rt then rt
  else
    match pyRFind (strOf "\x7d") rt with
    | some i => rt.take (i + 1)
    | none => rt

/-- Markdown-fence / brace-boundary extraction of
`WordEnhancementService.enhance_word` (vocabulary parse Methods 1-2). -/
def extractWE (response : Str) : Str :=
  pyStrip (weBraceEnd (weBraceStart (weFence (pyStrip response))))

/-- Drop a leading tagged fence marker. -/
def sentStrip1 (rc : Str) : Str :=
  if isPre (strOf "```json") rc then rc.drop 7 else rc

/-- Drop a leading plain fence marker. -/
def sentStrip2 (rc : Str) : Str :=
  if isPre (strOf "```") rc then rc.drop 3 else rc

/-- Drop a trailing fence marker. -/
def sentStrip3 (rc : Str) : Str :=
  if pyEndsWith (strOf "```") rc then rc.take (rc.length - 3) else rc

/-- Markdown-fence stripping of `SentenceGenerator.generate_sentences`. -/
def extractSent (response : Str) : Str :=
  pyStrip (sentStrip3 (sentStrip2 (sentStrip1 (pyStrip response))))

/-- Markdown-fence stripping of `StoryGeneratorService._parse_story_json`
(the `split`-based variant). -/
def storyFenceStrip (ai : Str) : Str :=
  if containsSub (strOf "```json") ai then
    pyStrip ((pySplit (strOf "```") ((pySplit (strOf "```json") ai).getD 1 [])).getD 0 [])
  else if containsSub (strOf "```") ai then
    let parts := pySplit (strOf "```") ai
    if parts.length ≥ 3 then
      let ai2 := pyStrip (parts.getD 1 [])
      if isPre (strOf "json") ai2 || isPre (strOf "JSON") ai2 then
        pyStrip (ai2.drop 4)
      else ai2
    else ai
  else ai

/-- Model of `re.sub(r',\s*([}\]])', r'\1', s)`: drop a comma standing
(modulo whitespace) before a closing brace/bracket. -/
def subTrailingCommas : Str → Str
  | [] => []
  | c :: rest =>
    if c == ',' then
      match h : rest.dropWhile isSpaceB with
      | b :: r2 =>
        if b == '\x7d' || b == ']' then b :: subTrailingCommas r2
        else c :: subTrailingCommas rest
      | [] => c :: subTrailingCommas rest
    else c :: subTrailingCommas rest
termination_by l => l.length
decreasing_by
  · have hle := length_dropWhile_le' isSpaceB l
    rw [h] at hle
    simp only [List.length_cons] at *
    omega
  all_goals simp only [List.length_cons]; omega

/-- Python `s.rstrip(',')`. -/
def pyRStripComma (l : Str) : Str := (l.reverse.dropWhile (· == ',')).reverse

/-- Model of `re.search(r'\{.*\}', s, re.DOTALL)`: the span from the
first opening brace to the last closing brace, when non-degenerate. -/
def braceSpan (l : Str) : Option Str :=
  match findSub (strOf "\x7b") l, pyRFind (strOf "\x7d") l with
  | some i, some j => if i < j then some (pySlice l i (j + 1)) else none
  | _, _ => none

/-- Try a point matcher at every position, leftmost match first
(`re.search` semantics). -/
def scanFirst {α : Type} (m : Str → Option α) : Str → Option α
  | [] => m []
  | c :: rest =>
    match m (c :: rest) with
    | some a => some a
    | none => scanFirst m rest

/-- Consume a literal. -/
def mLit (pat l : Str) : Option Str :=
  if isPre pat l then some (l.drop pat.length) else none

/-- Consume one given character. -/
def mChar (c : Char) : Str → Option Str
  | [] => none
  | x :: r => if x == c then some r else none

/-- Body of `((?:[^"\\]|\\.)*)"` (escape pairs kept verbatim), returning
the capture and the remainder after the closing quote. -/
def p1Body : Str → Option (Str × Str)
  | [] => none
  | '"' :: rest => some ([], rest)
  | '\\' :: [] => none
  | '\\' :: e :: r2 => (p1Body r2).map (fun p => ('\\' :: e :: p.1, p.2))
  | c :: rest => (p1Body rest).map (fun p => (c :: p.1, p.2))

/-- Body of `([^"]*(?:\\"[^"]*)*)"` under Python backtracking: the
greedy `[^"]*` stops before each quote but gives the preceding backslash
back to the `\\"` alternation, so the group crosses backslash-preceded
quotes; when no closing quote follows the crossings the engine undoes
the last crossing and closes at that backslash-preceded quote itself
(the backslash then stays inside the group via `[^"]*`). -/
def p2Body : Str → Option (Str × Str)
  | [] => none
  | '\\' :: '"' :: r2 =>
    match p2Body r2 with
    | some p => some ('\\' :: '"' :: p.1, p.2)
    | none => some (['\\'], r2)
  | c :: rest =>
    if c == '"' then some ([], rest)
    else (p2Body rest).map (fun p => (c :: p.1, p.2))

/-- Body of the lazy `(.*?)"(?:\s*[,}])`: shortest capture whose closing
quote is followed by optional whitespace and a comma or brace. -/
def p3Body : Str → Option (Str × Str)
  | [] => none
  | '"' :: rest =>
    (match rest.dropWhile isSpaceB with
     | b :: _ =>
       if b == ',' || b == '\x7d' then some ([], rest)
       else (p3Body rest).map (fun p => ('"' :: p.1, p.2))
     | [] => (p3Body rest).map (fun p => ('"' :: p.1, p.2)))
  | c :: rest => (p3Body rest).map (fun p => (c :: p.1, p.2))

/-- Point matcher for `"title"\s*:\s*"([^"]+)"`. -/
def titleAt (l : Str) : Option Str := do
  let r ← mLit (strOf "\"title\"") l
  let r ← mChar ':' (r.dropWhile isSpaceB)
  let r ← mChar '"' (r.dropWhile isSpaceB)
  let capt := r.takeWhile (fun c => !(c == '"'))
  match r.dropWhile (fun c => !(c == '"')) with
  | '"' :: _ => if capt.isEmpty then none else some capt
  | _ => none

/-- Point matcher for the single-quoted title variant. -/
def titleSAt (l : Str) : Option Str := do
  let r ← mLit (strOf "\x27title\x27") l
  let r ← mChar ':' (r.dropWhile isSpaceB)
  let r ← mChar '\x27' (r.dropWhile isSpaceB)
  let capt := r.takeWhile (fun c => !(c == '\x27'))
  match r.dropWhile (fun c => !(c == '\x27')) with
  | '\x27' :: _ => if capt.isEmpty then none else some capt
  | _ => none

/-- Title extraction of the regex last-resort tier. -/
def extractTitle (l : Str) : Option Str :=
  match scanFirst titleAt l with
  | some t => some t
  | none => scanFirst titleSAt l

/-- Shared head of the three content patterns. -/
def contentHead (l : Str) : Option Str := do
  let r ← mLit (strOf "\"content\"") l
  let r ← mChar ':' (r.dropWhile isSpaceB)
  mChar '"' (r.dropWhile isSpaceB)

/-- Point matcher for content pattern 1. -/
def contentAt1 (l : Str) : Option Str := do
  let r ← contentHead l
  let (capt, rest) ← p1Body r
  match rest.dropWhile isSpaceB with
  | b :: _ => if b == ',' || b == '\x7d' then some capt else none
  | [] => none

/-- Point matcher for content pattern 2. -/
def contentAt2 (l : Str) : Option Str := do
  let r ← contentHead l
  let (capt, _) ← p2Body r
  some capt

/-- Point matcher for content pattern 3. -/
def contentAt3 (l : Str) : Option Str := do
  let r ← contentHead l
  let (capt, _) ← p3Body r
  some capt

/-- Content extraction of the regex last-resort tier (three patterns in
order). -/
def extractContent (l : Str) : Option Str :=
  match scanFirst contentAt1 l with
  | some c => some c
  | none =>
    match scanFirst contentAt2 l with
    | some c => some c
    | none => scanFirst contentAt3 l

/-- Python-dict insertion (update in place, else append). -/
def dinsert {β : Type} (d : List (Str × β)) (k : Str) (v : β) : List (Str × β) :=
  if (d.find? (fun p => p.1 == k)).isSome then
    d.map (fun p => if p.1 == k then (p.1, v) else p)
  else d ++ [(k, v)]

/-- Python-dict lookup. -/
def lookupD {β : Type} (d : List (Str × β)) (k : Str) : Option β :=
  (d.find? (fun p => p.1 == k)).map (·.2)

/-- Point matcher for the `"word_usage"\s*:\s*\{([^}]*)\}` capture. -/
def wuAt (l : Str) : Option Str := do
  let r ← mLit (strOf "\"word_usage\"") l
  let r ← mChar ':' (r.dropWhile isSpaceB)
  let r ← mChar '\x7b' (r.dropWhile isSpaceB)
  let capt := r.takeWhile (fun c => !(c == '\x7d'))
  match r.dropWhile (fun c => !(c == '\x7d')) with
  | '\x7d' :: _ => some capt
  | _ => none

/-- Point matcher for one `"key"\s*:\s*"value"` usage entry, returning
the pair and the remainder after the match. -/
def wuEntryAt (l : Str) : Option ((Str × Str) × Str) := do
  let r ← mChar '"' l
  let k := r.takeWhile (fun c => !(c == '"'))
  let r ← mChar '"' (r.dropWhile (fun c => !(c == '"')))
  if k.isEmpty then none
  else
    let r ← mChar ':' (r.dropWhile isSpaceB)
    let r ← mChar '"' (r.dropWhile isSpaceB)
    let v := r.takeWhile (fun c => !(c == '"'))
    let r ← mChar '"' (r.dropWhile (fun c => !(c == '"')))
    some ((k, v), r)

/-- Fuel-bounded `re.finditer` scan: emit each non-overlapping match,
resuming after it. -/
def finditerF {α : Type} (m : Str → Option (α × Str)) : Nat → Str → List α
  | 0, _ => []
  | _, [] => []
  | fuel + 1, c :: rest =>
    match m (c :: rest) with
    | some (a, r) => a :: finditerF m fuel r
    | none => finditerF m fuel rest

/-- Usage-map extraction of the regex last-resort tier. -/
def extractWordUsage (ai : Str) : List (Str × Str) :=
  match scanFirst wuAt ai with
  | none => []
  | some capt =>
    (finditerF wuEntryAt (capt.length + 1) capt).foldl
      (fun d kv => dinsert d kv.1 kv.2) []

/-- The `json.JSONDecodeError` recovery path of
`StoryGeneratorService._parse_story_json`: comma/boundary repair, then
field-level regex extraction. -/
def storyRepair (ai : Str) : Except PyErr Json :=
    let fixed := subTrailingCommas ai
    let fixed := pyRStripComma (pyRStrip fixed)
    let fixed := match braceSpan fixed with | some s => s | none => fixed
    match parseJson fixed with
    | some d => .ok d
    | none =>
      match extractTitle ai, extractContent ai with
      | some title, some content =>
        let content := pyReplace (strOf "\\n") (strOf "\n") content
        let content := pyReplace (strOf "\\\"") (strOf "\"") content
        let content := pyReplace (strOf "\\\\") (strOf "\\") content
        .ok (.obj [(strOf "title", .str title),
                   (strOf "title_english", .str (strOf "Story")),
                   (strOf "content", .str content),
                   (strOf "word_usage",
                     .obj ((extractWordUsage ai).map (fun p => (p.1, Json.str p.2))))])
      | _, _ => .error .valueError

/-- `StoryGeneratorService._parse_story_json`: fence stripping, direct
parse, then the repair tiers. -/
def parseStoryJson (ai0 : Str) : Except PyErr Json :=
  match parseJson (storyFenceStrip ai0) with
  | some d => .ok d
  | none => storyRepair (storyFenceStrip ai0)

/-!
`WordEnhancementService` (word_enhancement_service.py): prompt building
feeds only the LLM call, which is abstracted as the per-attempt response
`gen`; everything from the response onward is embedded.
-/

/-- `EnhancedWordContent` pydantic model. -/
structure EnhancedWordContent : Type where
  word_english : Str
  word_cantonese : Str
  jyutping : Str
  definition_english : Str
  definition_cantonese : Str
  example_english : Str
  example_cantonese : Str
  difficulty : Str
deriving DecidableEq

/-- Required string field of a pydantic model: absent, `null`, or
non-string values raise `ValidationError` (pydantic v2). -/
def getJStr (m : List (Str × Json)) (k : Str) : Except PyErr Str :=
  match jlookup m k with
  | some (.str s) => .ok s
  | _ => .error .valueError

/-- Optional string field of a pydantic model (default `None`). -/
def getOptJStr (m : List (Str × Json)) (k : Str) : Except PyErr (Option Str) :=
  match jlookup m k with
  | none => .ok none
  | some .null => .ok none
  | some (.str s) => .ok (some s)
  | some _ => .error .valueError

/-- String field with a string default (pydantic `difficulty: str = "easy"`). -/
def getJStrD (m : List (Str × Json)) (k : Str) (d : Str) : Except PyErr Str :=
  match jlookup m k with
  | none => .ok d
  | some (.str s) => .ok s
  | some _ => .error .valueError

/-- Required fields validated by `enhance_word` before construction. -/
def enhanceRequiredFields : List Str :=
  [strOf "word_english", strOf "word_cantonese", strOf "jyutping",
   strOf "definition_english", strOf "definition_cantonese",
   strOf "example_english", strOf "example_cantonese"]

/-- The `f not in data or not data[f]` validation. -/
def enhanceRequiredOk (m : List (Str × Json)) : Bool :=
  enhanceRequiredFields.all (fun f =>
    match jlookup m f with
    | some v => jtruthy v
    | none => false)

/-- `EnhancedWordContent(**data)`: succeeds when every field is a
usable string (pydantic v2 raises `ValidationError` otherwise). -/
def mkEnhanced (m : List (Str × Json)) : Except PyErr EnhancedWordContent :=
  match getJStr m (strOf "word_english"), getJStr m (strOf "word_cantonese"),
        getJStr m (strOf "jyutping"), getJStr m (strOf "definition_english"),
        getJStr m (strOf "definition_cantonese"), getJStr m (strOf "example_english"),
        getJStr m (strOf "example_cantonese"),
        getJStrD m (strOf "difficulty") (strOf "easy") with
  | .ok we, .ok wc, .ok jy, .ok de, .ok dc, .ok ee, .ok ec, .ok df =>
      .ok ⟨we, wc, jy, de, dc, ee, ec, df⟩
  | _, _, _, _, _, _, _, _ => .error .valueError

/-- One generation attempt of `enhance_word` after the raw response is
in hand: extraction, `json.loads`, required-field validation, pydantic
construction.  Any failure is caught by the per-attempt handlers and
leads to a retry. -/
def enhanceAttempt (response : Str) : Except PyErr EnhancedWordContent :=
  match parseJson (extractWE response) with
  | none => .error .jsonError
  | some (.obj m) =>
    if enhanceRequiredOk m then mkEnhanced m else .error .valueError
  | some _ => .error .valueError

/-- `WordEnhancementService._create_fallback_content`. -/
def createFallbackContent (word : Str) : EnhancedWordContent where
  word_english := word
  word_cantonese := word
  jyutping := []
  definition_english := strOf "A word learned through observation"
  definition_cantonese := strOf "透過觀察學習的詞語"
  example_english := strOf "I learned about " ++ pyLower word
  example_cantonese := strOf "我學習了" ++ word
  difficulty := strOf "easy"

/-- Retry loop of `enhance_word`, instrumented with the number of LLM
invocations made (`calls`).  `gen i` is the transport outcome of the
`i`-th invocation. -/
def enhanceWordGo (gen : Nat → Except PyErr Str) (word : Str) :
    Nat → Nat → EnhancedWordContent × Nat
  | 0, calls => (createFallbackContent word, calls)
  | n + 1, calls =>
    match gen calls with
    | .error _ => enhanceWordGo gen word n (calls + 1)
    | .ok text =>
      match enhanceAttempt text with
      | .ok e => (e, calls + 1)
      | .error _ => enhanceWordGo gen word n (calls + 1)

/-- `WordEnhancementService.enhance_word` (default `max_retries` is 3 at
the call sites).  Total: every failure path ends in the fallback. -/
def enhanceWord (gen : Nat → Except PyErr Str) (word : Str) (maxRetries : Nat) :
    EnhancedWordContent × Nat :=
  enhanceWordGo gen word maxRetries 0

/-!
Vocabulary endpoint `enhance_word_content` (vocabulary.py): the word row
as loaded from the database; `db.commit`/`db.refresh` are modelled as
identity on the in-memory entity.
-/

/-- The nullable columns of the `Word` row used by the endpoint. -/
structure WordRec : Type where
  word : Str
  word_cantonese : Option Str
  jyutping : Option Str
  definition : Option Str
  definition_cantonese : Option Str
  «example» : Option Str
  example_cantonese : Option Str
  difficulty : Option Str
deriving DecidableEq

/-- Marker phrase for generic definitions. -/
def genericMarker : Str := strOf "word learned from"

/-- Python `not word.definition or "word learned from" in word.definition.lower()`. -/
def definitionGeneric (d : Option Str) : Bool :=
  match d with
  | none => true
  | some s => s.isEmpty || containsSub genericMarker (pyLower s)

/-- Difficulty values accepted by the endpoint. -/
def difficultyValid (d : Str) : Bool :=
  !d.isEmpty && (d == strOf "easy" || d == strOf "medium" || d == strOf "hard")

/-- Guarded assignment `if not word.word_cantonese: ...`. -/
def updWC (w : WordRec) (e : EnhancedWordContent) : WordRec :=
  if truthyO w.word_cantonese then w
  else { w with word_cantonese := some e.word_cantonese }

/-- Guarded assignment `if not word.jyutping: ...`. -/
def updJy (w : WordRec) (e : EnhancedWordContent) : WordRec :=
  if truthyO w.jyutping then w else { w with jyutping := some e.jyutping }

/-- Guarded assignment `if not word.definition_cantonese: ...`. -/
def updDefC (w : WordRec) (e : EnhancedWordContent) : WordRec :=
  if truthyO w.definition_cantonese then w
  else { w with definition_cantonese := some e.definition_cantonese }

/-- Guarded assignment `if not word.example_cantonese: ...`. -/
def updExC (w : WordRec) (e : EnhancedWordContent) : WordRec :=
  if truthyO w.example_cantonese then w
  else { w with example_cantonese := some e.example_cantonese }

/-- Generic-definition replacement of both English fields. -/
def updDef (w : WordRec) (e : EnhancedWordContent) : WordRec :=
  if definitionGeneric w.definition then
    { w with definition := some e.definition_english,
             «example» := some e.example_english }
  else w

/-- Unconditional difficulty update (guarded only by validity of the
generated value). -/
def updDiff (w : WordRec) (e : EnhancedWordContent) : WordRec :=
  if difficultyValid e.difficulty then { w with difficulty := some e.difficulty }
  else w

/-- Fill-only update phase of `enhance_word_content`: the guarded field
assignments in source order. -/
def fillMissingFields (w0 : WordRec) (e : EnhancedWordContent) : WordRec :=
  updDiff (updDef (updExC (updDefC (updJy (updWC w0 e) e) e) e) e) e

/-- Identity-restore phase of `enhance_word_content` (run before and
after the commit): force the snapshot values back on mismatch. -/
def restoreIdentity (originalWord : Str) (originalWC : Option Str) (w0 : WordRec) :
    WordRec :=
  let w := if w0.word == originalWord then w0 else { w0 with word := originalWord }
  if truthyO originalWC && !(w.word_cantonese == originalWC) then
    { w with word_cantonese := originalWC }
  else w

/-- Field-update and identity-restore logic of `enhance_word_content`
between loading the row and returning it (commit/refresh = identity, so
the post-commit re-check is a second `restoreIdentity` pass). -/
def applyEnhancement (w0 : WordRec) (e : EnhancedWordContent) : WordRec :=
  restoreIdentity w0.word w0.word_cantonese
    (restoreIdentity w0.word w0.word_cantonese (fillMissingFields w0 e))

/-- The endpoint: enhance via the service (3 attempts) and apply the
preservation-guarded update. -/
def enhanceWordContent (w : WordRec) (gen : Nat → Except PyErr Str) : WordRec :=
  applyEnhancement w (enhanceWord gen w.word 3).1

/-!
`SentenceGenerator.generate_sentences` (sentence_generator.py): prompt
construction feeds only the LLM call, abstracted as `resp`; the
database session and its save outcome are abstracted as flags plus an
outcome value.
-/

/-- `GeneratedSentence` pydantic model. -/
structure GeneratedSentence : Type where
  sentence : Str
  sentence_english : Option Str
  jyutping : Option Str
  context : Str
  difficulty : Str
deriving DecidableEq

/-- `SentenceGenerationResult` pydantic model. -/
structure SentenceGenerationResult : Type where
  word : Str
  word_cantonese : Str
  sentences : List GeneratedSentence
  total_generated : Nat
deriving DecidableEq

/-- `GeneratedSentence(**s)`. -/
def mkGeneratedSentence (j : Json) : Except PyErr GeneratedSentence :=
  match j with
  | .obj m => do
    let s ← getJStr m (strOf "sentence")
    let se ← getOptJStr m (strOf "sentence_english")
    let jy ← getOptJStr m (strOf "jyutping")
    let ctx ← getJStr m (strOf "context")
    let df ← getJStrD m (strOf "difficulty") (strOf "easy")
    return ⟨s, se, jy, ctx, df⟩
  | _ => .error .typeError

/-- The single fallback sentence built from pre-extracted word
attributes when JSON parsing fails. -/
def fallbackSentence (w : WordRec) : GeneratedSentence :=
  let wordCantonese := pyOrD w.word_cantonese w.word
  { sentence := pyOrD w.example_cantonese
      (pyOrD w.«example» (strOf "我見到" ++ wordCantonese ++ strOf "。"))
    sentence_english := some (pyOrD w.«example» (strOf "I see a " ++ w.word ++ strOf "."))
    jyutping := none
    context := strOf "general"
    difficulty := strOf "easy" }

/-- Response-parsing stage of `generate_sentences`: only
`json.JSONDecodeError` and `KeyError` select the fallback; a pydantic
`ValidationError` or a `TypeError` (non-dict document, non-list
`sentences`) propagates. -/
def sentencesFromResponse (w : WordRec) (text : Str) :
    Except PyErr (List GeneratedSentence) :=
  let clean := extractSent text
  match parseJson clean with
  | none => .ok [fallbackSentence w]
  | some (.obj m) =>
    match jlookup m (strOf "sentences") with
    | none => .ok [fallbackSentence w]
    | some (.arr items) => items.mapM mkGeneratedSentence
    | some _ => .error .typeError
  | some _ => .error .typeError

/-- `generate_sentences` from the LLM response onward.  A failing
persistence write is caught, rolled back, and does not affect the
returned result. -/
def generateSentences (w : WordRec) (resp : Except PyErr Str)
    (saveToDb dbPresent : Bool) (saveOutcome : Except PyErr Unit) :
    Except PyErr SentenceGenerationResult :=
  match resp with
  | .error e => .error e
  | .ok text =>
    match sentencesFromResponse w text with
    | .error e => .error e
    | .ok sentences =>
      let _save : Unit :=
        if saveToDb && dbPresent then
          match saveOutcome with
          | .ok _ => ()
          | .error _ => ()   -- except: print, rollback, continue
        else ()
      .ok { word := w.word
            word_cantonese := pyOrD w.word_cantonese w.word
            sentences := sentences
            total_generated := sentences.length }

/-!
`StoryGeneratorService` (story_generator.py): the child row, daily-word
summaries, LLM response and commit outcome are inputs; fields derived
from wall-clock time, uuid, provider/model names and audio settings are
outside the embedding.
-/

/-- The fields of `DailyWordSummary` consumed after prompt construction. -/
structure DailyWordSummary : Type where
  word_id : Str
  word : Str
  word_cantonese : Str
  jyutping : Str
  definition_cantonese : Str
  example_cantonese : Str
deriving DecidableEq

/-- Python `a or b` on plain strings. -/
def pyOrS (a b : Str) : Str := if a.isEmpty then b else a

/-- `w.word_cantonese or w.word`: the usage-map key of a learned word. -/
def keyOf (w : DailyWordSummary) : Str := pyOrS w.word_cantonese w.word

/-- Default usage note for a word the model omitted. -/
def defaultNote (w : DailyWordSummary) : Str :=
  pyOrS w.definition_cantonese
    (pyOrS w.example_cantonese (strOf "用於故事中 (Used in the story)"))

/-- First reconciliation loop body: keep a model entry only when its
key is a learned-word key. -/
def wuKeepStep (validKeys : List Str) (d : List (Str × Json)) (kv : Str × Json) :
    List (Str × Json) :=
  if validKeys.contains kv.1 then dinsert d kv.1 kv.2 else d

/-- Second reconciliation loop body: add a default note for a learned
word whose key is still missing. -/
def wuFillStep (d : List (Str × Json)) (w : DailyWordSummary) : List (Str × Json) :=
  if (lookupD d (keyOf w)).isSome then d
  else dinsert d (keyOf w) (Json.str (defaultNote w))

/-- Word-usage reconciliation of `generate_story`: keep model entries
for real input words, then add defaults for input words the model
omitted. -/
def reconcileWordUsage (words : List DailyWordSummary)
    (ai : List (Str × Json)) : List (Str × Json) :=
  words.foldl wuFillStep (ai.foldl (wuKeepStep (words.map keyOf)) [])

/-- Predicate for Python `\w` (ASCII word characters; non-ASCII code
points count as word characters, approximating Unicode `\w`). -/
def isWordChar (c : Char) : Bool := c.isAlphanum || c == '_' || decide (c.val ≥ 128)

/-- Consume an optional single or double quote. -/
def skipOptQuote (l : Str) : Str :=
  match l with
  | c :: rest => if c == '"' || c == '\x27' then rest else c :: rest
  | [] => []

/-- Matcher for `\\n\\n\s*["\']?\w+["\']?\s*:\s*\{` at a position
(pattern 1 of `_clean_story_content`; the `.*$` tail removes the rest). -/
def r1At (l : Str) : Bool :=
  match mLit (strOf "\\n\\n") l with
  | none => false
  | some r =>
    let r := skipOptQuote (r.dropWhile isSpaceB)
    let w := r.takeWhile isWordChar
    if w.isEmpty then false
    else
      let r := skipOptQuote (r.dropWhile isWordChar)
      match r.dropWhile isSpaceB with
      | ':' :: r2 =>
        match r2.dropWhile isSpaceB with
        | '\x7b' :: _ => true
        | _ => false
      | _ => false

/-- Matcher for `\}\s*,\s*["\']?\w+["\']?\s*:` at a position (pattern 2
of `_clean_story_content`). -/
def r2At (l : Str) : Bool :=
  match l with
  | '\x7d' :: r =>
    (match r.dropWhile isSpaceB with
     | ',' :: r2 =>
       let r3 := skipOptQuote (r2.dropWhile isSpaceB)
       let w := r3.takeWhile isWordChar
       if w.isEmpty then false
       else
         let r4 := skipOptQuote (r3.dropWhile isWordChar)
         match r4.dropWhile isSpaceB with
         | ':' :: _ => true
         | _ => false
     | _ => false)
  | _ => false

/-- Remove everything from the first position where `pred` matches
(`re.sub(pattern-with-.*$, '', s)` semantics). -/
def cutAtFirst (pred : Str → Bool) : Str → Str
  | [] => []
  | c :: rest => if pred (c :: rest) then [] else c :: cutAtFirst pred rest

/-- Trailing-JSON-fragment class of `re.sub(r'\s*[,\}\]]+\s*$', '', s)`. -/
def isFragChar (c : Char) : Bool := c == ',' || c == '\x7d' || c == ']'

/-- Model of `re.sub(r'\s*[,\}\]]+\s*$', '', s)`: remove one trailing
run of fragment characters together with surrounding whitespace; if no
fragment character ends the stripped text, nothing matches. -/
def stripTrailingFrag (l : Str) : Str :=
  let r1 := pyRStrip l
  match r1.reverse with
  | c :: _ =>
    if isFragChar c then
      pyRStrip ((r1.reverse.dropWhile isFragChar).reverse)
    else l
  | [] => l

/-- Model of `re.sub(r'\n{3,}', '\n\n', s)`. -/
def collapseNewlines : Str → Str
  | [] => []
  | c :: rest =>
    if c == '\n' then
      let run := 1 + (rest.takeWhile (fun x => x == '\n')).length
      let tl := rest.dropWhile (fun x => x == '\n')
      (if run ≥ 3 then ['\n', '\n'] else List.replicate run '\n') ++ collapseNewlines tl
    else c :: collapseNewlines rest
termination_by l => l.length
decreasing_by
  · have := length_dropWhile_le' (fun x => x == '\n') l
    simp only [List.length_cons]
    omega
  · simp only [List.length_cons]; omega

/-- `StoryGeneratorService._clean_story_content`. -/
def cleanStoryContent (content : Str) : Str :=
  if content.isEmpty then []
  else
    let c := cutAtFirst r1At content
    let c := cutAtFirst r2At c
    let c := pyReplace (strOf "\\n") (strOf "\n") c
    let c := pyReplace (strOf "\\\"") (strOf "\"") c
    let c := pyReplace (strOf "\\\x27") (strOf "\x27") c
    let c := stripTrailingFrag c
    let c := collapseNewlines c
    pyStrip c

/-- Python `sep.join`. -/
def joinSep (sep : Str) : List Str → Str
  | [] => []
  | [x] => x
  | x :: xs => x ++ sep ++ joinSep sep xs

/-- `StoryGeneratorService._build_story_ssml`. -/
def buildStorySSML (text : Str) : Str :=
  if text.isEmpty then strOf "<speak></speak>"
  else
    let paragraphs := ((pySplit (strOf "\n") text).map pyStrip).filter
      (fun p => !p.isEmpty)
    if paragraphs.isEmpty then strOf "<speak>" ++ text ++ strOf "</speak>"
    else
      strOf "<speak>" ++
        (paragraphs.foldr (fun p acc => strOf "<p>" ++ p ++ strOf "</p>" ++ acc) []) ++
        strOf "</speak>"

/-- The child row fields used by `generate_story`. -/
structure Child : Type where
  name : Str
  age : Nat
deriving DecidableEq

/-- The generation-derived fields of the `GeneratedStory` record. -/
structure GeneratedStory : Type where
  title : Json
  title_english : Json
  content_cantonese : Str
  vocab_used : Str
  story_text : Str
  story_text_ssml : Str
  featured_words : List Str
  word_usage : List (Str × Json)
  word_count : Nat

/-- The body of `generate_story`'s `try` block after the transport call:
parse, clean, reconcile word usage, build the record, commit.  Any
parsing, validation or commit failure propagates (the `except` block
re-raises). -/
def generateStoryCore (words : List DailyWordSummary) (aiResponse : Str)
    (commitOutcome : Except PyErr Unit) : Except PyErr GeneratedStory :=
  match parseStoryJson aiResponse with
  | .error e => .error e
  | .ok storyData =>
    match storyData with
    | .obj m =>
      let rawJ := match jlookup m (strOf "content") with
        | some v => if jtruthy v then v else Json.str []
        | none => Json.str []
      match rawJ with
      | .str s =>
        if s.isEmpty then .error .valueError
        else
          let storyText := cleanStoryContent s
          let storyText :=
            if storyText.length < 50 && s.length > 50 then
              pyReplace (strOf "\\\"") (strOf "\"")
                (pyReplace (strOf "\\n") (strOf "\n") s)
            else storyText
          let vocabUsed :=
            let v := joinSep (strOf ", ") (words.map keyOf)
            if v.length > 500 then v.take 497 ++ strOf "..." else v
          let aiWordUsage := match jlookup m (strOf "word_usage") with
            | some v => if jtruthy v then v else Json.obj []
            | none => Json.obj []
          let aiWuDict := match aiWordUsage with
            | .obj entries => entries
            | _ => []
          let wordUsage := reconcileWordUsage words aiWuDict
          let title := match jlookup m (strOf "title") with
            | some v => if jtruthy v then v else Json.str (strOf "今日的故事")
            | none => Json.str (strOf "今日的故事")
          let titleEnglish := match jlookup m (strOf "title_english") with
            | some v => if jtruthy v then v else Json.str (strOf "Story")
            | none => Json.str (strOf "Story")
          match commitOutcome with
          | .error e => .error e
          | .ok _ =>
            .ok { title := title
                  title_english := titleEnglish
                  content_cantonese := storyText
                  vocab_used := vocabUsed
                  story_text := storyText
                  story_text_ssml := buildStorySSML storyText
                  featured_words := words.map (·.word_id)
                  word_usage := wordUsage
                  word_count := storyText.length }
      | j => if jtruthy j then .error .typeError else .error .valueError
    | _ => .error .typeError

/-- `StoryGeneratorService.generate_story` from the loaded child row and
daily words onward.  `gen i` is the transport outcome of the `i`-th
`llm_service.generate` invocation; the result is paired with the number
of transport invocations made.  There is no retry loop: the pre-checks
raise before any invocation, and the failure of the single invocation —
like every later parsing, validation or commit failure — propagates to
the caller (the `except` block re-raises). -/
def generateStory (child : Option Child) (words : List DailyWordSummary)
    (gen : Nat → Except PyErr Str) (commitOutcome : Except PyErr Unit) :
    Except PyErr GeneratedStory × Nat :=
  match child with
  | none => (.error .valueError, 0)
  | some _ =>
    if words.isEmpty then (.error .valueError, 0)
    else
      match gen 0 with
      | .error e => (.error e, 1)
      | .ok aiResponse => (generateStoryCore words aiResponse commitOutcome, 1)


/-!
`LLMService._generate_ollama` (llm_service.py): the two HTTP transports
are inputs — `chat` is the outcome of posting to `/api/chat` (an
exception, or a status code with a decoded body), and `gen` maps a
completion prompt to the outcome of posting it to `/api/generate`.  The
`ValueError` re-wrapping in the completion-path handlers changes only
the exception payload and is not modelled; error tags are kept.
-/

/-- One conversation message (`LLMMessage`). -/
structure LLMMessage : Type where
  role : Str
  content : Str
deriving DecidableEq

/-- Python `not text or len(text.strip()) == 0`. -/
def pyBlank (s : Str) : Bool := s.isEmpty || (pyStrip s).isEmpty

/-- Decoded `/api/chat` response body: the optional `message` object
with its `content`/`thinking` keys, and the optional top-level
`thinking` key. -/
structure OllamaChatMsg : Type where
  content : Option Str
  thinking : Option Str
deriving DecidableEq

/-- Envelope of the chat body. -/
structure OllamaChatBody : Type where
  message : Option OllamaChatMsg
  thinking : Option Str
deriving DecidableEq

/-- Decoded `/api/generate` response body. -/
structure OllamaGenBody : Type where
  response : Option Str
  thinking : Option Str
deriving DecidableEq

/-- Chat-shape handling of a 200 response: primary `message.content`,
falling back to `message.thinking` then top-level `thinking` when the
primary text is blank; raises on a missing envelope or blank text. -/
def ollamaChatHandle (data : OllamaChatBody) : Except PyErr Str :=
  match data.message with
  | some msg =>
    match msg.content with
    | some c =>
      let t := if pyBlank c then
                 match msg.thinking with
                 | some th => th
                 | none =>
                   match data.thinking with
                   | some th => th
                   | none => c
               else c
      if pyBlank t then .error .emptyResponse else .ok t
    | none => .error .badEnvelope
  | none => .error .badEnvelope

/-- Completion-shape handling of a 2xx response: primary `response`
text, falling back to `thinking` when blank. -/
def ollamaGenHandle (data : OllamaGenBody) : Except PyErr Str :=
  match data.response with
  | none => .error .badEnvelope
  | some r =>
    let t := if pyBlank r then
               match data.thinking with
               | some th => th
               | none => r
             else r
    if pyBlank t then .error .emptyResponse else .ok t

/-- Prompt flattening for the completion endpoint: `System:`/`User:`/
`Assistant:` lines (other roles dropped) joined by blank lines, plus the
final `Assistant:` cue. -/
def flattenPrompt (messages : List LLMMessage) : Str :=
  joinSep (strOf "\n\n")
    (messages.filterMap (fun m =>
      if m.role == strOf "system" then some (strOf "System: " ++ m.content)
      else if m.role == strOf "user" then some (strOf "User: " ++ m.content)
      else if m.role == strOf "assistant" then some (strOf "Assistant: " ++ m.content)
      else none)) ++ strOf "\n\nAssistant:"

instance {ε α : Type} [DecidableEq ε] [DecidableEq α] : DecidableEq (Except ε α) :=
  fun a b =>
  match a, b with
  | .error e, .error f =>
    if h : e = f then isTrue (h ▸ rfl) else isFalse (fun c => h (by cases c; rfl))
  | .ok x, .ok y =>
    if h : x = y then isTrue (h ▸ rfl) else isFalse (fun c => h (by cases c; rfl))
  | .error _, .ok _ => isFalse (fun c => Except.noConfusion c)
  | .ok _, .error _ => isFalse (fun c => Except.noConfusion c)

/-- Result of `_generate_ollama`, instrumented with the completion
prompt actually posted (if the completion fallback ran at all).
`result = .ok none` is Python returning `None`. -/
structure OllamaCall : Type where
  result : Except PyErr (Option Str)
  completionPrompt : Option Str
deriving DecidableEq

/-- `LLMService._generate_ollama`: try `/api/chat`; on an exception from
that call (or from its body handling) flatten the prompt and post once
to `/api/generate`.  A non-200 chat status raises nothing, skips the
fallback and falls off the end of the function (`None`). -/
def runOllama (messages : List LLMMessage)
    (chat : Except PyErr (Nat × OllamaChatBody))
    (gen : Str → Except PyErr (Nat × OllamaGenBody)) : OllamaCall :=
  let chatOutcome : Except PyErr (Option Str) :=
    match chat with
    | .error e => .error e
    | .ok (status, data) =>
      if status = 200 then (ollamaChatHandle data).map some
      else .ok none
  match chatOutcome with
  | .ok r => { result := .ok r, completionPrompt := none }
  | .error _ =>
    let prompt := flattenPrompt messages
    let genResult : Except PyErr Str :=
      match gen prompt with
      | .error e => .error e
      | .ok (status, data) =>
        if 200 ≤ status ∧ status < 300 then ollamaGenHandle data
        else .error (.httpStatus status)
    { result := genResult.map some, completionPrompt := some prompt }

/-!
Module-level singleton getters (`get_llm_service`,
`get_word_enhancement_service`, `get_sentence_generator`), with the
module globals as an explicit state record and environment variables as
an explicit environment.
-/

/-- The LLM providers. -/
inductive LLMProvider : Type where
  | openai | anthropic | ollama
deriving DecidableEq

/-- Environment variables read by `LLMService`. -/
structure Env : Type where
  openai_api_key : Option Str
  anthropic_api_key : Option Str
  ollama_base_url : Option Str
  ollama_model : Option Str
deriving DecidableEq

/-- `LLMService._get_default_api_key`. -/
def defaultApiKey (env : Env) : LLMProvider → Option Str
  | .openai => env.openai_api_key
  | .anthropic => env.anthropic_api_key
  | .ollama => none

/-- `LLMService._get_default_model`. -/
def defaultModel (env : Env) : LLMProvider → Str
  | .openai => strOf "gpt-4o"
  | .anthropic => strOf "claude-3-5-sonnet-20241022"
  | .ollama => (env.ollama_model).getD (strOf "qwen3:4b")

/-- `LLMService._get_default_base_url`. -/
def defaultBaseUrl (env : Env) : LLMProvider → Str
  | .ollama => (env.ollama_base_url).getD (strOf "http://localhost:11434")
  | _ => []

/-- The static configuration held by one `LLMService` instance. -/
structure LLMService : Type where
  provider : LLMProvider
  api_key : Option Str
  model : Str
  base_url : Str
deriving DecidableEq

/-- `LLMService.__init__` with default arguments (as called by the
getters): raises when a hosted provider has no usable key. -/
def mkLLMService (env : Env) (p : LLMProvider) : Except PyErr LLMService :=
  let key := defaultApiKey env p
  if p ≠ LLMProvider.ollama ∧ truthyO key = false then .error .valueError
  else .ok { provider := p, api_key := key, model := defaultModel env p,
             base_url := defaultBaseUrl env p }

/-- `WordEnhancementService` instance state (holds only its client). -/
structure WordEnhancementServiceS : Type where
  llm : LLMService
deriving DecidableEq

/-- `SentenceGenerator` instance state (holds only its client). -/
structure SentenceGeneratorS : Type where
  llm : LLMService
deriving DecidableEq

/-- The module-level singleton globals. -/
structure ServiceState : Type where
  openaiService : Option LLMService
  anthropicService : Option LLMService
  ollamaService : Option LLMService
  enhancementService : Option WordEnhancementServiceS
  sentenceGenerator : Option SentenceGeneratorS
deriving DecidableEq

/-- Interpreter start state: all globals `None`. -/
def initState : ServiceState :=
  { openaiService := none, anthropicService := none, ollamaService := none,
    enhancementService := none, sentenceGenerator := none }

/-- `get_llm_service`: one cached instance per provider. -/
def getLLMService (env : Env) (p : LLMProvider) (s : ServiceState) :
    Except PyErr (LLMService × ServiceState) :=
  match p with
  | .openai =>
    match s.openaiService with
    | some svc => .ok (svc, s)
    | none => (mkLLMService env .openai).map
        (fun svc => (svc, { s with openaiService := some svc }))
  | .anthropic =>
    match s.anthropicService with
    | some svc => .ok (svc, s)
    | none => (mkLLMService env .anthropic).map
        (fun svc => (svc, { s with anthropicService := some svc }))
  | .ollama =>
    match s.ollamaService with
    | some svc => .ok (svc, s)
    | none => (mkLLMService env .ollama).map
        (fun svc => (svc, { s with ollamaService := some svc }))

/-- `get_word_enhancement_service`: a single process-wide instance; the
provider argument is consulted only on first construction. -/
def getWordEnhancementService (env : Env) (p : LLMProvider) (s : ServiceState) :
    Except PyErr (WordEnhancementServiceS × ServiceState) :=
  match s.enhancementService with
  | some svc => .ok (svc, s)
  | none =>
    (getLLMService env p s).map (fun r =>
      let svc : WordEnhancementServiceS := { llm := r.1 }
      (svc, { r.2 with enhancementService := some svc }))

/-- `get_sentence_generator`: a single process-wide instance; the
provider argument is consulted only on first construction. -/
def getSentenceGenerator (env : Env) (p : LLMProvider) (s : ServiceState) :
    Except PyErr (SentenceGeneratorS × ServiceState) :=
  match s.sentenceGenerator with
  | some svc => .ok (svc, s)
  | none =>
    (getLLMService env p s).map (fun r =>
      let svc : SentenceGeneratorS := { llm := r.1 }
      (svc, { r.2 with sentenceGenerator := some svc }))

/-!
Helper lemmas about the enhancement endpoint phases.
-/

theorem restoreIdentity_word (ow : Str) (owc : Option Str) (w : WordRec) :
    (restoreIdentity ow owc w).word = ow := by
  simp only [restoreIdentity]
  split_ifs with h1 h2 h3 <;> simp_all

theorem restoreIdentity_wc (ow : Str) {owc : Option Str} (w : WordRec)
    (h : truthyO owc = true) :
    (restoreIdentity ow owc w).word_cantonese = owc := by
  simp only [restoreIdentity]
  split_ifs with h1 h2 h3 <;> simp_all

theorem restoreIdentity_wc_skip (ow : Str) {owc : Option Str} (w : WordRec)
    (h : truthyO owc = false) :
    (restoreIdentity ow owc w).word_cantonese = w.word_cantonese := by
  simp only [restoreIdentity]
  split_ifs with h1 h2 h3 <;> simp_all

theorem restoreIdentity_rest (ow : Str) (owc : Option Str) (w : WordRec) :
    (restoreIdentity ow owc w).jyutping = w.jyutping ∧
    (restoreIdentity ow owc w).definition = w.definition ∧
    (restoreIdentity ow owc w).definition_cantonese = w.definition_cantonese ∧
    (restoreIdentity ow owc w).«example» = w.«example» ∧
    (restoreIdentity ow owc w).example_cantonese = w.example_cantonese ∧
    (restoreIdentity ow owc w).difficulty = w.difficulty := by
  simp only [restoreIdentity]
  split_ifs <;> simp_all

theorem updWC_frame (w : WordRec) (e : EnhancedWordContent) :
    (updWC w e).word = w.word ∧ (updWC w e).jyutping = w.jyutping ∧
    (updWC w e).definition = w.definition ∧
    (updWC w e).definition_cantonese = w.definition_cantonese ∧
    (updWC w e).«example» = w.«example» ∧
    (updWC w e).example_cantonese = w.example_cantonese ∧
    (updWC w e).difficulty = w.difficulty := by
  unfold updWC; split_ifs <;> simp

theorem updJy_frame (w : WordRec) (e : EnhancedWordContent) :
    (updJy w e).word = w.word ∧ (updJy w e).word_cantonese = w.word_cantonese ∧
    (updJy w e).definition = w.definition ∧
    (updJy w e).definition_cantonese = w.definition_cantonese ∧
    (updJy w e).«example» = w.«example» ∧
    (updJy w e).example_cantonese = w.example_cantonese ∧
    (updJy w e).difficulty = w.difficulty := by
  unfold updJy; split_ifs <;> simp

theorem updDefC_frame (w : WordRec) (e : EnhancedWordContent) :
    (updDefC w e).word = w.word ∧ (updDefC w e).word_cantonese = w.word_cantonese ∧
    (updDefC w e).jyutping = w.jyutping ∧
    (updDefC w e).definition = w.definition ∧
    (updDefC w e).«example» = w.«example» ∧
    (updDefC w e).example_cantonese = w.example_cantonese ∧
    (updDefC w e).difficulty = w.difficulty := by
  unfold updDefC; split_ifs <;> simp

theorem updExC_frame (w : WordRec) (e : EnhancedWordContent) :
    (updExC w e).word = w.word ∧ (updExC w e).word_cantonese = w.word_cantonese ∧
    (updExC w e).jyutping = w.jyutping ∧
    (updExC w e).definition = w.definition ∧
    (updExC w e).definition_cantonese = w.definition_cantonese ∧
    (updExC w e).«example» = w.«example» ∧
    (updExC w e).difficulty = w.difficulty := by
  unfold updExC; split_ifs <;> simp

theorem updDef_frame (w : WordRec) (e : EnhancedWordContent) :
    (updDef w e).word = w.word ∧ (updDef w e).word_cantonese = w.word_cantonese ∧
    (updDef w e).jyutping = w.jyutping ∧
    (updDef w e).definition_cantonese = w.definition_cantonese ∧
    (updDef w e).example_cantonese = w.example_cantonese ∧
    (updDef w e).difficulty = w.difficulty := by
  unfold updDef; split_ifs <;> simp

theorem updDiff_frame (w : WordRec) (e : EnhancedWordContent) :
    (updDiff w e).word = w.word ∧ (updDiff w e).word_cantonese = w.word_cantonese ∧
    (updDiff w e).jyutping = w.jyutping ∧
    (updDiff w e).definition = w.definition ∧
    (updDiff w e).definition_cantonese = w.definition_cantonese ∧
    (updDiff w e).«example» = w.«example» ∧
    (updDiff w e).example_cantonese = w.example_cantonese := by
  unfold updDiff; split_ifs <;> simp

theorem fillMissingFields_word (w : WordRec) (e : EnhancedWordContent) :
    (fillMissingFields w e).word = w.word := by
  unfold fillMissingFields
  rw [(updDiff_frame _ _).1, (updDef_frame _ _).1, (updExC_frame _ _).1,
      (updDefC_frame _ _).1, (updJy_frame _ _).1, (updWC_frame _ _).1]

theorem fillMissingFields_wc_fill {w : WordRec} (e : EnhancedWordContent)
    (h : truthyO w.word_cantonese = false) :
    (fillMissingFields w e).word_cantonese = some e.word_cantonese := by
  unfold fillMissingFields
  rw [(updDiff_frame _ _).2.1, (updDef_frame _ _).2.1, (updExC_frame _ _).2.1,
      (updDefC_frame _ _).2.1, (updJy_frame _ _).2.1]
  simp [updWC, h]

theorem fillMissingFields_wc_keep {w : WordRec} (e : EnhancedWordContent)
    (h : truthyO w.word_cantonese = true) :
    (fillMissingFields w e).word_cantonese = w.word_cantonese := by
  unfold fillMissingFields
  rw [(updDiff_frame _ _).2.1, (updDef_frame _ _).2.1, (updExC_frame _ _).2.1,
      (updDefC_frame _ _).2.1, (updJy_frame _ _).2.1]
  simp [updWC, h]

theorem fillMissingFields_jy_keep {w : WordRec} (e : EnhancedWordContent)
    (h : truthyO w.jyutping = true) :
    (fillMissingFields w e).jyutping = w.jyutping := by
  unfold fillMissingFields
  rw [(updDiff_frame _ _).2.2.1, (updDef_frame _ _).2.2.1, (updExC_frame _ _).2.2.1,
      (updDefC_frame _ _).2.2.1]
  have hj := (updWC_frame w e).2.1
  simp [updJy, hj, h]

theorem fillMissingFields_defc_keep {w : WordRec} (e : EnhancedWordContent)
    (h : truthyO w.definition_cantonese = true) :
    (fillMissingFields w e).definition_cantonese = w.definition_cantonese := by
  unfold fillMissingFields
  rw [(updDiff_frame _ _).2.2.2.2.1, (updDef_frame _ _).2.2.2.1,
      (updExC_frame _ _).2.2.2.2.1]
  have h1 := (updWC_frame w e).2.2.2.1
  have h2 := (updJy_frame (updWC w e) e).2.2.2.1
  rw [h1] at h2
  simp [updDefC, h2, h]

theorem fillMissingFields_exc_keep {w : WordRec} (e : EnhancedWordContent)
    (h : truthyO w.example_cantonese = true) :
    (fillMissingFields w e).example_cantonese = w.example_cantonese := by
  unfold fillMissingFields
  rw [(updDiff_frame _ _).2.2.2.2.2.2, (updDef_frame _ _).2.2.2.2.1]
  have h1 := (updWC_frame w e).2.2.2.2.2.1
  have h2 := (updJy_frame (updWC w e) e).2.2.2.2.2.1
  have h3 := (updDefC_frame (updJy (updWC w e) e) e).2.2.2.2.2.1
  rw [h1] at h2
  rw [h2] at h3
  simp [updExC, h3, h]

theorem fillMissingFields_def_keep {w : WordRec} (e : EnhancedWordContent)
    (h : definitionGeneric w.definition = false) :
    (fillMissingFields w e).definition = w.definition ∧
    (fillMissingFields w e).«example» = w.«example» := by
  unfold fillMissingFields
  have hdef : (updExC (updDefC (updJy (updWC w e) e) e) e).definition = w.definition := by
    rw [(updExC_frame _ _).2.2.2.1, (updDefC_frame _ _).2.2.2.1,
        (updJy_frame _ _).2.2.1, (updWC_frame _ _).2.2.1]
  have hex : (updExC (updDefC (updJy (updWC w e) e) e) e).«example» = w.«example» := by
    rw [(updExC_frame _ _).2.2.2.2.2.1, (updDefC_frame _ _).2.2.2.2.1,
        (updJy_frame _ _).2.2.2.2.1, (updWC_frame _ _).2.2.2.2.1]
  constructor
  · rw [(updDiff_frame _ _).2.2.2.1]
    simp [updDef, hdef, h]
  · rw [(updDiff_frame _ _).2.2.2.2.2.1]
    simp [updDef, hdef, hex, h]

theorem fillMissingFields_difficulty {w : WordRec} (e : EnhancedWordContent)
    (h : difficultyValid e.difficulty = true) :
    (fillMissingFields w e).difficulty = some e.difficulty := by
  unfold fillMissingFields
  simp [updDiff, h]

theorem applyEnhancement_word (w : WordRec) (e : EnhancedWordContent) :
    (applyEnhancement w e).word = w.word := by
  unfold applyEnhancement
  rw [restoreIdentity_word]

theorem applyEnhancement_wc_preserved {w : WordRec} (e : EnhancedWordContent)
    (h : truthyO w.word_cantonese = true) :
    (applyEnhancement w e).word_cantonese = w.word_cantonese := by
  unfold applyEnhancement
  rw [restoreIdentity_wc _ _ h]

/-- C1: for every stored word entity whose identity fields are non-empty
(English surface form `word.word`; Cantonese surface form
`word.word_cantonese` when non-empty before the call), after
`enhance_word_content` completes, those identity fields are
byte-identical to their pre-call snapshot values — for any enhancement
value the model produced (`e` is universally quantified, covering
adversarial outputs echoing a different word), and in particular for the
full endpoint composed with `enhance_word` over any transport. -/
theorem C1_enhance_identity_preserved (w : WordRec) (e : EnhancedWordContent)
    (gen : Nat → Except PyErr Str) (hw : ¬ w.word.isEmpty) :
    ((applyEnhancement w e).word = w.word ∧
      (truthyO w.word_cantonese = true →
        (applyEnhancement w e).word_cantonese = w.word_cantonese)) ∧
    ((enhanceWordContent w gen).word = w.word ∧
      (truthyO w.word_cantonese = true →
        (enhanceWordContent w gen).word_cantonese = w.word_cantonese)) := by
  refine ⟨⟨applyEnhancement_word w e, fun h => applyEnhancement_wc_preserved e h⟩, ?_⟩
  unfold enhanceWordContent
  exact ⟨applyEnhancement_word w _, fun h => applyEnhancement_wc_preserved _ h⟩

/-- Concrete word row "cat"/「貓」used to instantiate C1. -/
def c1w : WordRec :=
  { word := strOf "cat", word_cantonese := some (strOf "貓"), jyutping := none,
    definition := some (strOf "A pet"), definition_cantonese := none,
    «example» := none, example_cantonese := none, difficulty := some (strOf "easy") }

/-- Adversarial model output echoing a different word ("dog"). -/
def c1e : EnhancedWordContent :=
  { word_english := strOf "dog", word_cantonese := strOf "狗",
    jyutping := strOf "gau2", definition_english := strOf "a dog",
    definition_cantonese := strOf "狗", example_english := strOf "a dog runs",
    example_cantonese := strOf "狗跑", difficulty := strOf "hard" }

/-- An always-failing transport. -/
def c1genFail : Nat → Except PyErr Str := fun _ => .error .connectError

/-- Concrete instantiation of the C1 theorem: the word "cat"/「貓」with
an adversarial enhancement echoing "dog", and an always-failing
transport for the endpoint composition. -/
theorem C1_enhance_identity_preserved_witness :
    ¬ c1w.word.isEmpty ∧
    ((applyEnhancement c1w c1e).word = c1w.word ∧
      (truthyO c1w.word_cantonese = true →
        (applyEnhancement c1w c1e).word_cantonese = c1w.word_cantonese)) ∧
    ((enhanceWordContent c1w c1genFail).word = c1w.word ∧
      (truthyO c1w.word_cantonese = true →
        (enhanceWordContent c1w c1genFail).word_cantonese = c1w.word_cantonese)) :=
  ⟨by decide,
   (C1_enhance_identity_preserved c1w c1e c1genFail (by decide)).1,
   (C1_enhance_identity_preserved c1w c1e c1genFail (by decide)).2⟩

/-- C3 counterexample: the deterministic fallback constructor does
return an empty string — its `jyutping` field — even for the non-empty
input word "Cat", so not every field of the fallback `WordEnhancement`
is non-empty. -/
theorem C3_fallback_nonempty_cex :
    strOf "Cat" ≠ [] ∧ (createFallbackContent (strOf "Cat")).jyutping = [] := by
  decide

/-- C3 (amended): for every non-empty input word, the fallback
constructor returns content whose fields are all non-empty except the
phonetic gloss `jyutping`, which is always the empty string (the
documented marker of degraded output). -/
theorem C3_fallback_fields (word : Str) (hw : word ≠ []) :
    (createFallbackContent word).word_english ≠ [] ∧
    (createFallbackContent word).word_cantonese ≠ [] ∧
    (createFallbackContent word).jyutping = [] ∧
    (createFallbackContent word).definition_english ≠ [] ∧
    (createFallbackContent word).definition_cantonese ≠ [] ∧
    (createFallbackContent word).example_english ≠ [] ∧
    (createFallbackContent word).example_cantonese ≠ [] ∧
    (createFallbackContent word).difficulty ≠ [] := by
  refine ⟨hw, hw, rfl, ?_, ?_, ?_, ?_, ?_⟩
  · show strOf "A word learned through observation" ≠ []
    decide
  · show strOf "透過觀察學習的詞語" ≠ []
    decide
  · show strOf "I learned about " ++ pyLower word ≠ []
    intro h
    have := (List.append_eq_nil.mp h).1
    exact absurd this (by decide)
  · show strOf "我學習了" ++ word ≠ []
    intro h
    have := (List.append_eq_nil.mp h).1
    exact absurd this (by decide)
  · show strOf "easy" ≠ []
    decide

/-- Concrete instantiation of the amended C3 theorem at the word "Cat". -/
theorem C3_fallback_fields_witness :
    strOf "Cat" ≠ [] ∧
    ((createFallbackContent (strOf "Cat")).word_english ≠ [] ∧
     (createFallbackContent (strOf "Cat")).word_cantonese ≠ [] ∧
     (createFallbackContent (strOf "Cat")).jyutping = [] ∧
     (createFallbackContent (strOf "Cat")).definition_english ≠ [] ∧
     (createFallbackContent (strOf "Cat")).definition_cantonese ≠ [] ∧
     (createFallbackContent (strOf "Cat")).example_english ≠ [] ∧
     (createFallbackContent (strOf "Cat")).example_cantonese ≠ [] ∧
     (createFallbackContent (strOf "Cat")).difficulty ≠ []) :=
  ⟨by decide, C3_fallback_fields (strOf "Cat") (by decide)⟩

/-- The retry loop with an always-failing generator makes exactly the
remaining number of attempts and ends in the fallback. -/
theorem enhanceWordGo_all_fail (gen : Nat → Except PyErr Str) (word : Str)
    (hg : ∀ n, ∃ er, gen n = .error er) :
    ∀ n calls, enhanceWordGo gen word n calls = (createFallbackContent word, calls + n) := by
  intro n
  induction n with
  | zero => intro calls; simp [enhanceWordGo]
  | succ m ih =>
    intro calls
    obtain ⟨er, her⟩ := hg calls
    rw [enhanceWordGo, her, ih (calls + 1)]
    simp only [Prod.mk.injEq, true_and]
    omega

/-- C2 (amended): with a single transport that fails on every attempt,
only the word enhancer retries and falls back — it makes exactly `N`
invocation attempts (`N = max_retries`, 3 at its call sites) and then
returns the deterministic fallback content without raising.  The other
two orchestrators have no retry loop and no transport fallback: the
story generator makes exactly one transport invocation and re-raises
its failure to the caller, and the sentence generator re-raises any
transport failure unchanged (its fallback sentence is reserved for
JSON-parse failures of a successfully returned response). -/
theorem C2_retry_fallback_behavior
    (gen : Nat → Except PyErr Str) (word : Str) (N : Nat)
    (hg : ∀ n, ∃ er, gen n = .error er)
    (child : Child) (words : List DailyWordSummary) (hwords : words ≠ [])
    (commit : Except PyErr Unit) (w : WordRec)
    (saveToDb dbPresent : Bool) (saveOutcome : Except PyErr Unit)
    (e : PyErr) (hg0 : gen 0 = .error e) :
    enhanceWord gen word N = (createFallbackContent word, N) ∧
    generateStory (some child) words gen commit = (.error e, 1) ∧
    generateSentences w (gen 0) saveToDb dbPresent saveOutcome = .error e := by
  refine ⟨?_, ?_, ?_⟩
  · have := enhanceWordGo_all_fail gen word hg N 0
    simpa [enhanceWord] using this
  · simp [generateStory, hwords, hg0]
  · rw [hg0]
    rfl

/-- Concrete instantiation of the amended C2 theorem: a transport that
fails with `ConnectionError` on every attempt. -/
theorem C2_retry_fallback_behavior_witness :
    (∀ n, c1genFail n = .error .connectError) ∧
    enhanceWord c1genFail (strOf "cat") 3 = (createFallbackContent (strOf "cat"), 3) ∧
    generateStory (some { name := strOf "Amy", age := 4 })
      [{ word_id := strOf "w1", word := strOf "cat", word_cantonese := strOf "貓",
         jyutping := strOf "maau1", definition_cantonese := strOf "動物",
         example_cantonese := strOf "一隻貓" }]
      c1genFail (.ok ()) = (.error .connectError, 1) ∧
    generateSentences c1w (c1genFail 0) true true (.ok ()) =
      .error .connectError := by
  refine ⟨fun _ => rfl, ?_⟩
  exact C2_retry_fallback_behavior c1genFail (strOf "cat") 3
    (fun _ => ⟨.connectError, rfl⟩)
    { name := strOf "Amy", age := 4 }
    [{ word_id := strOf "w1", word := strOf "cat", word_cantonese := strOf "貓",
       jyutping := strOf "maau1", definition_cantonese := strOf "動物",
       example_cantonese := strOf "一隻貓" }]
    (by decide) (.ok ()) c1w true true (.ok ()) .connectError rfl

/-- C2 counterexample: the claim as stated fails on the sentence and
story generators — with a transport that always fails, both raise the
transport error to the caller (the story generator after exactly one
invocation attempt) instead of returning a fallback placeholder
result. -/
theorem C2_retry_fallback_cex :
    generateSentences c1w (.error .connectError) true true (.ok ()) =
      .error .connectError ∧
    generateStory (some { name := strOf "Amy", age := 4 })
      [{ word_id := strOf "w1", word := strOf "cat", word_cantonese := strOf "貓",
         jyutping := strOf "maau1", definition_cantonese := strOf "動物",
         example_cantonese := strOf "一隻貓" }]
      c1genFail (.ok ()) = (.error .connectError, 1) := by
  exact ⟨rfl, rfl⟩

/-- C9: when the response parses, `generate_sentences` returns the same
in-memory `SentenceGenerationResult` regardless of the persistence
outcome — a failing save is caught, rolled back (modelled non-failing)
and reported only by logging, and the call never raises. -/
theorem C9_save_failure_isolated (w : WordRec) (t : Str) (ss : List GeneratedSentence)
    (hp : sentencesFromResponse w t = .ok ss)
    (er : PyErr) (so1 so2 : Except PyErr Unit) (d1 d2 : Bool) :
    generateSentences w (.ok t) true true (.error er) =
      .ok { word := w.word, word_cantonese := pyOrD w.word_cantonese w.word,
            sentences := ss, total_generated := ss.length } ∧
    generateSentences w (.ok t) true true (.error er) =
      generateSentences w (.ok t) true true (.ok ()) ∧
    generateSentences w (.ok t) d1 d2 so1 = generateSentences w (.ok t) d1 d2 so2 := by
  unfold generateSentences
  simp [hp]

/-- Concrete instantiation of the C9 theorem: a non-JSON response whose
parse stage yields the fallback sentence, saved with a failing database
session. -/
theorem C9_save_failure_isolated_witness :
    sentencesFromResponse c1w (strOf "plain prose") = .ok [fallbackSentence c1w] ∧
    (generateSentences c1w (.ok (strOf "plain prose")) true true (.error .runtime) =
      .ok { word := c1w.word, word_cantonese := pyOrD c1w.word_cantonese c1w.word,
            sentences := [fallbackSentence c1w],
            total_generated := [fallbackSentence c1w].length } ∧
     generateSentences c1w (.ok (strOf "plain prose")) true true (.error .runtime) =
       generateSentences c1w (.ok (strOf "plain prose")) true true (.ok ()) ∧
     generateSentences c1w (.ok (strOf "plain prose")) true true (.error .runtime) =
       generateSentences c1w (.ok (strOf "plain prose")) true true (.ok ())) :=
  ⟨by decide,
   (C9_save_failure_isolated c1w (strOf "plain prose") [fallbackSentence c1w]
      (by decide) .runtime (.error .runtime) (.ok ()) true true).1,
   (C9_save_failure_isolated c1w (strOf "plain prose") [fallbackSentence c1w]
      (by decide) .runtime (.error .runtime) (.ok ()) true true).2.1,
   (C9_save_failure_isolated c1w (strOf "plain prose") [fallbackSentence c1w]
      (by decide) .runtime (.error .runtime) (.ok ()) true true).2.2⟩

/-- Repeated `get_llm_service` calls for one provider return the cached
instance and leave the globals unchanged. -/
theorem getLLMService_repeat (env : Env) (p : LLMProvider)
    (s : ServiceState) (svc : LLMService) (s1 : ServiceState)
    (hllm : getLLMService env p s = .ok (svc, s1)) :
    getLLMService env p s1 = .ok (svc, s1) := by
  cases p
  case openai =>
    cases hs : s.openaiService with
    | some v =>
      simp [getLLMService, hs] at hllm
      obtain ⟨h1, h2⟩ := hllm
      subst h1; subst h2
      simp [getLLMService, hs]
    | none =>
      simp [getLLMService, hs] at hllm
      cases hmk : mkLLMService env .openai with
      | error e => simp [hmk, Except.map] at hllm
      | ok v =>
        simp [hmk, Except.map] at hllm
        obtain ⟨h1, h2⟩ := hllm
        subst h1; subst h2
        simp [getLLMService]
  case anthropic =>
    cases hs : s.anthropicService with
    | some v =>
      simp [getLLMService, hs] at hllm
      obtain ⟨h1, h2⟩ := hllm
      subst h1; subst h2
      simp [getLLMService, hs]
    | none =>
      simp [getLLMService, hs] at hllm
      cases hmk : mkLLMService env .anthropic with
      | error e => simp [hmk, Except.map] at hllm
      | ok v =>
        simp [hmk, Except.map] at hllm
        obtain ⟨h1, h2⟩ := hllm
        subst h1; subst h2
        simp [getLLMService]
  case ollama =>
    cases hs : s.ollamaService with
    | some v =>
      simp [getLLMService, hs] at hllm
      obtain ⟨h1, h2⟩ := hllm
      subst h1; subst h2
      simp [getLLMService, hs]
    | none =>
      simp [getLLMService, hs] at hllm
      cases hmk : mkLLMService env .ollama with
      | error e => simp [hmk, Except.map] at hllm
      | ok v =>
        simp [hmk, Except.map] at hllm
        obtain ⟨h1, h2⟩ := hllm
        subst h1; subst h2
        simp [getLLMService]

/-- A fresh `get_llm_service` construction labels the instance with the
requested provider. -/
theorem getLLMService_initState_provider (env : Env) (p : LLMProvider)
    (r : LLMService × ServiceState) (h : getLLMService env p initState = .ok r) :
    r.1.provider = p := by
  cases p <;>
  · simp only [getLLMService, initState, mkLLMService] at h
    split at h
    · simp [Except.map] at h
    · simp [Except.map] at h
      rw [← h]

/-- After the first `get_word_enhancement_service` call, every later
call returns the same instance whatever provider it passes. -/
theorem wordEnhancementGetter_ignores_provider (env : Env) (p q : LLMProvider)
    (svcE : WordEnhancementServiceS) (sE : ServiceState)
    (hE : getWordEnhancementService env p initState = .ok (svcE, sE)) :
    svcE.llm.provider = p ∧ getWordEnhancementService env q sE = .ok (svcE, sE) := by
  unfold getWordEnhancementService at hE
  rw [show initState.enhancementService = none from rfl] at hE
  simp only [] at hE
  cases hmk : getLLMService env p initState with
  | error e => rw [hmk] at hE; simp [Except.map] at hE
  | ok r =>
    rw [hmk] at hE
    simp [Except.map] at hE
    obtain ⟨h1, h2⟩ := hE
    constructor
    · rw [← h1]
      exact getLLMService_initState_provider env p r hmk
    · rw [getWordEnhancementService, ← h2]
      simp [← h1]

/-- After the first `get_sentence_generator` call, every later call
returns the same instance whatever provider it passes. -/
theorem sentenceGetter_ignores_provider (env : Env) (p q : LLMProvider)
    (svcG : SentenceGeneratorS) (sG : ServiceState)
    (hG : getSentenceGenerator env p initState = .ok (svcG, sG)) :
    svcG.llm.provider = p ∧ getSentenceGenerator env q sG = .ok (svcG, sG) := by
  unfold getSentenceGenerator at hG
  rw [show initState.sentenceGenerator = none from rfl] at hG
  simp only [] at hG
  cases hmk : getLLMService env p initState with
  | error e => rw [hmk] at hG; simp [Except.map] at hG
  | ok r =>
    rw [hmk] at hG
    simp [Except.map] at hG
    obtain ⟨h1, h2⟩ := hG
    constructor
    · rw [← h1]
      exact getLLMService_initState_provider env p r hmk
    · rw [getSentenceGenerator, ← h2]
      simp [← h1]

/-- C10: `get_llm_service` returns one and the same instance per
provider on repeated calls, but the two orchestrator getters keep a
single process-wide instance regardless of provider: a later call with
a different provider argument returns the instance constructed for the
first call's provider (whose client is labelled with that first
provider) and the later provider argument is silently ignored. -/
theorem C10_singleton_getters (env : Env) (p q : LLMProvider)
    (s : ServiceState) (svc : LLMService) (s1 : ServiceState)
    (hllm : getLLMService env p s = .ok (svc, s1))
    (svcE : WordEnhancementServiceS) (sE : ServiceState)
    (hE : getWordEnhancementService env p initState = .ok (svcE, sE))
    (svcG : SentenceGeneratorS) (sG : ServiceState)
    (hG : getSentenceGenerator env p initState = .ok (svcG, sG))
    (hpq : p ≠ q) :
    getLLMService env p s1 = .ok (svc, s1) ∧
    (svcE.llm.provider = p ∧ getWordEnhancementService env q sE = .ok (svcE, sE)) ∧
    (svcG.llm.provider = p ∧ getSentenceGenerator env q sG = .ok (svcG, sG)) :=
  ⟨getLLMService_repeat env p s svc s1 hllm,
   wordEnhancementGetter_ignores_provider env p q svcE sE hE,
   sentenceGetter_ignores_provider env p q svcG sG hG⟩

/-- Environment with no API keys configured (Ollama needs none). -/
def env0 : Env :=
  { openai_api_key := none, anthropic_api_key := none,
    ollama_base_url := none, ollama_model := none }

/-- The Ollama client constructed on first use with `env0`. -/
def svcOllama0 : LLMService :=
  { provider := .ollama, api_key := none, model := strOf "qwen3:4b",
    base_url := strOf "http://localhost:11434" }

/-- Concrete instantiation of the C10 theorem: first calls with the
Ollama provider from the interpreter start state, later calls passing
OpenAI. -/
theorem C10_singleton_getters_witness :
    getLLMService env0 .ollama initState =
      .ok (svcOllama0, { initState with ollamaService := some svcOllama0 }) ∧
    getWordEnhancementService env0 .ollama initState =
      .ok ({ llm := svcOllama0 },
        { initState with ollamaService := some svcOllama0,
                         enhancementService := some { llm := svcOllama0 } }) ∧
    getSentenceGenerator env0 .ollama initState =
      .ok ({ llm := svcOllama0 },
        { initState with ollamaService := some svcOllama0,
                         sentenceGenerator := some { llm := svcOllama0 } }) ∧
    (LLMProvider.ollama ≠ LLMProvider.openai) ∧
    (getLLMService env0 .ollama { initState with ollamaService := some svcOllama0 } =
      .ok (svcOllama0, { initState with ollamaService := some svcOllama0 }) ∧
    (WordEnhancementServiceS.llm { llm := svcOllama0 } |>.provider) = .ollama ∧
    getWordEnhancementService env0 .openai
      { initState with ollamaService := some svcOllama0,
                       enhancementService := some { llm := svcOllama0 } } =
      .ok ({ llm := svcOllama0 },
        { initState with ollamaService := some svcOllama0,
                         enhancementService := some { llm := svcOllama0 } }) ∧
    (SentenceGeneratorS.llm { llm := svcOllama0 } |>.provider) = .ollama ∧
    getSentenceGenerator env0 .openai
      { initState with ollamaService := some svcOllama0,
                       sentenceGenerator := some { llm := svcOllama0 } } =
      .ok ({ llm := svcOllama0 },
        { initState with ollamaService := some svcOllama0,
                         sentenceGenerator := some { llm := svcOllama0 } })) := by
  refine ⟨by decide, by decide, by decide, by decide, ?_⟩
  have h := C10_singleton_getters env0 .ollama .openai initState svcOllama0
    { initState with ollamaService := some svcOllama0 } (by decide)
    { llm := svcOllama0 }
    { initState with ollamaService := some svcOllama0,
                     enhancementService := some { llm := svcOllama0 } } (by decide)
    { llm := svcOllama0 }
    { initState with ollamaService := some svcOllama0,
                     sentenceGenerator := some { llm := svcOllama0 } } (by decide)
    (by decide)
  exact ⟨h.1, h.2.1.1, h.2.1.2, h.2.2.1, h.2.2.2⟩

theorem find?_cons_pos' {α : Type} (p : α → Bool) (a : α) (l : List α)
    (h : p a = true) : (a :: l).find? p = some a :=
  List.find?_cons_of_pos l h

theorem find?_cons_neg' {α : Type} (p : α → Bool) (a : α) (l : List α)
    (h : p a = false) : (a :: l).find? p = l.find? p :=
  List.find?_cons_of_neg l (by simp [h])

theorem find?_some' {α : Type} (p : α → Bool) {l : List α} {a : α}
    (h : l.find? p = some a) : p a = true :=
  List.find?_some h

theorem find?_upd {β : Type} (d : List (Str × β)) (k : Str) (v : β) :
    (d.map (fun q => if q.1 == k then (q.1, v) else q)).find? (fun q => q.1 == k)
      = (d.find? (fun q => q.1 == k)).map (fun q => (q.1, v)) := by
  induction d with
  | nil => simp
  | cons a rest ih =>
    by_cases ha : (a.1 == k) = true
    · rw [List.map_cons, if_pos ha]
      rw [find?_cons_pos' (fun q => q.1 == k) (a.1, v) _ (by simpa using ha)]
      rw [find?_cons_pos' (fun q => q.1 == k) a rest ha]
      simp
    · simp only [Bool.not_eq_true] at ha
      rw [List.map_cons, if_neg (by simp [ha])]
      rw [find?_cons_neg' (fun q => q.1 == k) a _ ha]
      rw [find?_cons_neg' (fun q => q.1 == k) a rest ha]
      exact ih

theorem find?_append_none {α : Type} {q : α → Bool} {l1 : List α}
    (h : l1.find? q = none) (l2 : List α) :
    (l1 ++ l2).find? q = l2.find? q := by
  induction l1 with
  | nil => simp
  | cons a rest ih =>
    have ha : q a = false := by
      by_contra hq
      simp only [Bool.not_eq_false] at hq
      rw [find?_cons_pos' q a rest hq] at h
      exact Option.noConfusion h
    rw [find?_cons_neg' q a rest ha] at h
    rw [List.cons_append, find?_cons_neg' q a _ ha]
    exact ih h

theorem find?_append_some {α : Type} {q : α → Bool} {l1 : List α} {a : α}
    (h : l1.find? q = some a) (l2 : List α) :
    (l1 ++ l2).find? q = some a := by
  induction l1 with
  | nil => exact absurd h (by simp)
  | cons x rest ih =>
    by_cases hx : q x = true
    · rw [find?_cons_pos' q x rest hx] at h
      rw [List.cons_append, find?_cons_pos' q x _ hx]
      exact h
    · simp only [Bool.not_eq_true] at hx
      rw [find?_cons_neg' q x rest hx] at h
      rw [List.cons_append, find?_cons_neg' q x _ hx]
      exact ih h

theorem lookupD_dinsert_self {β : Type} (d : List (Str × β)) (k : Str) (v : β) :
    lookupD (dinsert d k v) k = some v := by
  unfold dinsert
  split_ifs with h
  · rw [lookupD, find?_upd]
    cases hf : d.find? (fun q => q.1 == k) with
    | none => rw [hf] at h; exact absurd h (by simp)
    | some q => simp [Option.map]
  · rw [lookupD]
    rw [find?_append_none (Option.not_isSome_iff_eq_none.mp h)]
    rw [find?_cons_pos' (fun q => q.1 == k) (k, v) [] (by simp)]
    simp

theorem lookupD_dinsert_other {β : Type} (d : List (Str × β)) (k k' : Str) (v : β)
    (hne : k' ≠ k) :
    lookupD (dinsert d k v) k' = lookupD d k' := by
  unfold dinsert
  split_ifs with h
  · rw [lookupD, List.find?_map]
    have hcomp : ((fun q : Str × β => q.1 == k') ∘
        (fun q => if q.1 == k then (q.1, v) else q)) = fun q => q.1 == k' := by
      funext q
      by_cases hc : (q.1 == k) = true <;> simp [Function.comp, hc]
    rw [hcomp, lookupD]
    cases hf : d.find? (fun q => q.1 == k') with
    | none => simp
    | some q =>
      have hq := find?_some' (fun r : Str × β => r.1 == k') hf
      have hqk : (q.1 == k) = false := by
        have hq' : q.1 = k' := by simpa using hq
        simp [hq', hne]
      simp [Option.map, hqk]
  · rw [lookupD, lookupD]
    cases hf : d.find? (fun q => q.1 == k') with
    | none =>
      rw [find?_append_none hf]
      rw [find?_cons_neg' (fun q => q.1 == k') (k, v) [] (by simp; exact Ne.symm hne)]
      simp
    | some q =>
      rw [find?_append_some hf]

theorem lookupD_dinsert_isSome {β : Type} (d : List (Str × β)) (a k : Str) (v : β) :
    (lookupD (dinsert d a v) k).isSome = true ↔ a = k ∨ (lookupD d k).isSome = true := by
  by_cases hak : a = k
  · subst hak
    rw [lookupD_dinsert_self]
    simp
  · rw [lookupD_dinsert_other d a k v (Ne.symm hak)]
    simp [hak]

theorem wuKeep_not_mem (vk : List Str) (ai : List (Str × Json)) :
    ∀ (d : List (Str × Json)) (k : Str), k ∉ ai.map Prod.fst →
      lookupD (ai.foldl (wuKeepStep vk) d) k = lookupD d k := by
  induction ai with
  | nil => intro d k _; rfl
  | cons kv rest ih =>
    intro d k hk
    simp only [List.map_cons, List.mem_cons, not_or] at hk
    rw [List.foldl_cons]
    have step : lookupD (wuKeepStep vk d kv) k = lookupD d k := by
      unfold wuKeepStep
      split_ifs with hc
      · exact lookupD_dinsert_other d kv.1 k kv.2 hk.1
      · rfl
    rw [ih (wuKeepStep vk d kv) k hk.2, step]

theorem wuKeep_mem (vk : List Str) (ai : List (Str × Json)) :
    ∀ (d : List (Str × Json)) (k : Str) (v : Json), (ai.map Prod.fst).Nodup →
      (k, v) ∈ ai → vk.contains k = true →
      lookupD (ai.foldl (wuKeepStep vk) d) k = some v := by
  induction ai with
  | nil => intro d k v _ hm _; simp at hm
  | cons kv rest ih =>
    intro d k v hnd hm hvk
    rw [List.foldl_cons]
    rcases List.mem_cons.mp hm with he | htail
    · subst he
      have hnotin : k ∉ rest.map Prod.fst := by
        simp only [List.map_cons, List.nodup_cons] at hnd
        exact hnd.1
      have hstep : wuKeepStep vk d (k, v) = dinsert d k v := by
        show (if vk.contains k = true then dinsert d k v else d) = dinsert d k v
        rw [hvk]
        simp
      rw [hstep, wuKeep_not_mem vk rest _ k hnotin, lookupD_dinsert_self]
    · have hnd' : (rest.map Prod.fst).Nodup := by
        simp only [List.map_cons, List.nodup_cons] at hnd
        exact hnd.2
      exact ih _ k v hnd' htail hvk

theorem wuKeep_valid (vk : List Str) (ai : List (Str × Json)) :
    ∀ (d : List (Str × Json)) (k : Str),
      (lookupD (ai.foldl (wuKeepStep vk) d) k).isSome = true →
      (lookupD d k).isSome = true ∨ vk.contains k = true := by
  induction ai with
  | nil => intro d k h; exact Or.inl h
  | cons kv rest ih =>
    intro d k h
    rw [List.foldl_cons] at h
    rcases ih (wuKeepStep vk d kv) k h with hd | hv
    · unfold wuKeepStep at hd
      split_ifs at hd with hc
      · rcases (lookupD_dinsert_isSome d kv.1 k kv.2).mp hd with he | hsome
        · subst he; exact Or.inr hc
        · exact Or.inl hsome
      · exact Or.inl hd
    · exact Or.inr hv

theorem wuFill_preserve (ws : List DailyWordSummary) :
    ∀ (d : List (Str × Json)) (k : Str), (lookupD d k).isSome = true →
      lookupD (ws.foldl wuFillStep d) k = lookupD d k := by
  induction ws with
  | nil => intro d k _; rfl
  | cons w ws ih =>
    intro d k hk
    rw [List.foldl_cons]
    by_cases hw : (lookupD d (keyOf w)).isSome = true
    · rw [show wuFillStep d w = d from by simp [wuFillStep, hw]]
      exact ih d k hk
    · have hne : keyOf w ≠ k := by
        intro he
        rw [he] at hw
        exact hw hk
      have hstep : wuFillStep d w = dinsert d (keyOf w) (Json.str (defaultNote w)) := by
        simp [wuFillStep, hw]
      rw [hstep]
      have hpres := lookupD_dinsert_other d (keyOf w) k (Json.str (defaultNote w)) (Ne.symm hne)
      rw [ih _ k (by rw [hpres]; exact hk), hpres]

theorem wuFill_missing (ws : List DailyWordSummary) :
    ∀ (d : List (Str × Json)) (k : Str), lookupD d k = none →
      lookupD (ws.foldl wuFillStep d) k =
        (ws.find? (fun w => keyOf w == k)).map (fun w => Json.str (defaultNote w)) := by
  induction ws with
  | nil => intro d k hk; simpa using hk
  | cons w ws ih =>
    intro d k hk
    rw [List.foldl_cons]
    by_cases hkw : (keyOf w == k) = true
    · have hkw' : keyOf w = k := by simpa using hkw
      have hw : (lookupD d (keyOf w)).isSome = false := by
        rw [hkw', hk]; rfl
      have hstep : wuFillStep d w = dinsert d (keyOf w) (Json.str (defaultNote w)) := by
        simp [wuFillStep, hw]
      rw [hstep, find?_cons_pos' (fun w' => keyOf w' == k) w ws hkw]
      have : lookupD (dinsert d (keyOf w) (Json.str (defaultNote w))) k =
          some (Json.str (defaultNote w)) := by
        rw [hkw']
        exact lookupD_dinsert_self d k _
      rw [wuFill_preserve ws _ k (by rw [this]; rfl), this]
      rfl
    · simp only [Bool.not_eq_true] at hkw
      have hne : keyOf w ≠ k := by
        intro he; rw [he] at hkw; simp at hkw
      rw [find?_cons_neg' (fun w' => keyOf w' == k) w ws hkw]
      by_cases hw : (lookupD d (keyOf w)).isSome = true
      · rw [show wuFillStep d w = d from by simp [wuFillStep, hw]]
        exact ih d k hk
      · have hstep : wuFillStep d w = dinsert d (keyOf w) (Json.str (defaultNote w)) := by
          simp [wuFillStep, hw]
        rw [hstep]
        refine ih _ k ?_
        rw [lookupD_dinsert_other d (keyOf w) k _ (Ne.symm hne)]
        exact hk

/-- C6: the reconciled word-usage map of `generate_story` has as its key
set exactly the learned-word keys (`w.word_cantonese or w.word`): model
entries with foreign keys are dropped, model entries for learned keys
keep the model's note, and every learned key the model omitted gets the
synthesized default note of the first word carrying that key. -/
theorem C6_word_usage_reconciled (words : List DailyWordSummary) (ai : List (Str × Json))
    (hnodup : (ai.map Prod.fst).Nodup) (k : Str) :
    ((lookupD (reconcileWordUsage words ai) k).isSome = true ↔ k ∈ words.map keyOf) ∧
    (∀ v, (k, v) ∈ ai → k ∈ words.map keyOf →
        lookupD (reconcileWordUsage words ai) k = some v) ∧
    (k ∉ ai.map Prod.fst → ∀ w, words.find? (fun w' => keyOf w' == k) = some w →
        lookupD (reconcileWordUsage words ai) k = some (Json.str (defaultNote w))) := by
  unfold reconcileWordUsage
  refine ⟨⟨?_, ?_⟩, ?_, ?_⟩
  · intro hsome
    by_cases h1 : (lookupD (ai.foldl (wuKeepStep (words.map keyOf)) []) k).isSome = true
    · rcases wuKeep_valid _ ai [] k h1 with hd | hv
      · simp [lookupD] at hd
      · simpa using hv
    · rw [wuFill_missing words _ k (Option.not_isSome_iff_eq_none.mp h1)] at hsome
      rcases Option.isSome_iff_exists.mp hsome with ⟨j, hj⟩
      rcases Option.map_eq_some'.mp hj with ⟨w, hw, _⟩
      have hkw : keyOf w = k := by simpa using find?_some' (fun w' => keyOf w' == k) hw
      have hwmem : w ∈ words := List.mem_of_find?_eq_some hw
      exact List.mem_map.mpr ⟨w, hwmem, hkw⟩
  · intro hk
    by_cases h1 : (lookupD (ai.foldl (wuKeepStep (words.map keyOf)) []) k).isSome = true
    · rw [wuFill_preserve words _ k h1]
      exact h1
    · rw [wuFill_missing words _ k (Option.not_isSome_iff_eq_none.mp h1)]
      rcases List.mem_map.mp hk with ⟨w, hwmem, hkw⟩
      have : (words.find? (fun w' => keyOf w' == k)).isSome = true := by
        rw [List.find?_isSome]
        exact ⟨w, hwmem, by simp [hkw]⟩
      rcases Option.isSome_iff_exists.mp this with ⟨w', hw'⟩
      rw [hw']
      rfl
  · intro v hmem hk
    have h1 : lookupD (ai.foldl (wuKeepStep (words.map keyOf)) []) k = some v :=
      wuKeep_mem _ ai [] k v hnodup hmem (by simpa using hk)
    rw [wuFill_preserve words _ k (by rw [h1]; rfl), h1]
  · intro hnot w hw
    have h1 : lookupD (ai.foldl (wuKeepStep (words.map keyOf)) []) k = none := by
      rw [wuKeep_not_mem _ ai [] k hnot]
      rfl
    rw [wuFill_missing words _ k h1, hw]
    rfl

/-- Learned word with curated Cantonese key 「貓」. -/
def dwsA : DailyWordSummary :=
  { word_id := strOf "w1", word := strOf "cat", word_cantonese := strOf "貓",
    jyutping := strOf "maau1", definition_cantonese := strOf "動物",
    example_cantonese := strOf "一隻貓" }

/-- Learned word falling back to its English key "dog". -/
def dwsB : DailyWordSummary :=
  { word_id := strOf "w2", word := strOf "dog", word_cantonese := [],
    jyutping := [], definition_cantonese := [],
    example_cantonese := strOf "犬吠" }

/-- A model usage map with one learned key and one foreign key. -/
def aiWuEx : List (Str × Json) :=
  [(strOf "貓", Json.str (strOf "用咗")), (strOf "alien", Json.str (strOf "x"))]

/-- Concrete instantiation of the C6 theorem at a kept key (「貓」, with
the model's note) and a synthesized key ("dog", with the default note). -/
theorem C6_word_usage_reconciled_witness :
    (aiWuEx.map Prod.fst).Nodup ∧
    (((lookupD (reconcileWordUsage [dwsA, dwsB] aiWuEx) (strOf "貓")).isSome = true ↔
        strOf "貓" ∈ [dwsA, dwsB].map keyOf) ∧
     (∀ v, (strOf "貓", v) ∈ aiWuEx → strOf "貓" ∈ [dwsA, dwsB].map keyOf →
        lookupD (reconcileWordUsage [dwsA, dwsB] aiWuEx) (strOf "貓") = some v) ∧
     (strOf "貓" ∉ aiWuEx.map Prod.fst →
        ∀ w, [dwsA, dwsB].find? (fun w' => keyOf w' == strOf "貓") = some w →
          lookupD (reconcileWordUsage [dwsA, dwsB] aiWuEx) (strOf "貓") =
            some (Json.str (defaultNote w)))) ∧
    (((lookupD (reconcileWordUsage [dwsA, dwsB] aiWuEx) (strOf "dog")).isSome = true ↔
        strOf "dog" ∈ [dwsA, dwsB].map keyOf) ∧
     (∀ v, (strOf "dog", v) ∈ aiWuEx → strOf "dog" ∈ [dwsA, dwsB].map keyOf →
        lookupD (reconcileWordUsage [dwsA, dwsB] aiWuEx) (strOf "dog") = some v) ∧
     (strOf "dog" ∉ aiWuEx.map Prod.fst →
        ∀ w, [dwsA, dwsB].find? (fun w' => keyOf w' == strOf "dog") = some w →
          lookupD (reconcileWordUsage [dwsA, dwsB] aiWuEx) (strOf "dog") =
            some (Json.str (defaultNote w)))) :=
  ⟨by decide,
   C6_word_usage_reconciled [dwsA, dwsB] aiWuEx (by decide) (strOf "貓"),
   C6_word_usage_reconciled [dwsA, dwsB] aiWuEx (by decide) (strOf "dog")⟩

/-- C7: for a self-hosted transport response whose primary content field
is blank (empty or whitespace-only) but whose secondary thinking field
carries non-blank text, the transport returns the thinking text instead
of declaring an empty response — on the chat shape via
`message.thinking` (or the top-level `thinking` when the message-level
key is absent), on the completion shape via the top-level `thinking` —
and the empty-response error arises exactly when the primary text is
blank and the selected secondary field yields no text either. -/
theorem C7_thinking_fallback (c : Str) (mth tth gth : Option Str) (r th : Str) :
    (pyBlank c = true → mth = some th → pyBlank th = false →
      ollamaChatHandle { message := some { content := some c, thinking := mth },
                         thinking := tth } = .ok th) ∧
    (pyBlank c = true → tth = some th → pyBlank th = false →
      ollamaChatHandle { message := some { content := some c, thinking := none },
                         thinking := tth } = .ok th) ∧
    (pyBlank r = true → gth = some th → pyBlank th = false →
      ollamaGenHandle { response := some r, thinking := gth } = .ok th) ∧
    (ollamaChatHandle { message := some { content := some c, thinking := mth },
                        thinking := tth } = .error .emptyResponse ↔
      pyBlank c = true ∧
        ((∃ t, mth = some t ∧ pyBlank t = true) ∨
         (mth = none ∧ ∃ t, tth = some t ∧ pyBlank t = true) ∨
         (mth = none ∧ tth = none))) ∧
    (ollamaGenHandle { response := some r, thinking := gth } = .error .emptyResponse ↔
      pyBlank r = true ∧
        ((∃ t, gth = some t ∧ pyBlank t = true) ∨ gth = none)) := by
  refine ⟨?_, ?_, ?_, ?_, ?_⟩
  · intro hc hm hth
    subst hm
    simp [ollamaChatHandle, hc, hth]
  · intro hc ht hth
    subst ht
    simp [ollamaChatHandle, hc, hth]
  · intro hr hg hth
    subst hg
    simp [ollamaGenHandle, hr, hth]
  · unfold ollamaChatHandle
    by_cases hc : pyBlank c = true
    · cases mth with
      | some t =>
        by_cases ht : pyBlank t = true <;> simp [hc, ht]
      | none =>
        cases tth with
        | some t =>
          by_cases ht : pyBlank t = true <;> simp [hc, ht]
        | none => simp [hc]
    · simp only [Bool.not_eq_true] at hc
      simp [hc]
  · unfold ollamaGenHandle
    by_cases hr : pyBlank r = true
    · cases gth with
      | some t =>
        by_cases ht : pyBlank t = true <;> simp [hr, ht]
      | none => simp [hr]
    · simp only [Bool.not_eq_true] at hr
      simp [hr]

/-- Concrete instantiation of the C7 theorem: blank primary content with
thinking text present in each location, and fully blank bodies for the
error side. -/
theorem C7_thinking_fallback_witness :
    ollamaChatHandle { message := some { content := some (strOf " "),
                                         thinking := some (strOf "thought") },
                       thinking := some (strOf "top") } = .ok (strOf "thought") ∧
    ollamaChatHandle { message := some { content := some (strOf " "), thinking := none },
                       thinking := some (strOf "top") } = .ok (strOf "top") ∧
    ollamaGenHandle { response := some [], thinking := some (strOf "deep") } =
      .ok (strOf "deep") ∧
    ollamaChatHandle { message := some { content := some [], thinking := none },
                       thinking := none } = .error .emptyResponse ∧
    ollamaGenHandle { response := some (strOf "  "), thinking := some [] } =
      .error .emptyResponse :=
  ⟨(C7_thinking_fallback (strOf " ") (some (strOf "thought")) (some (strOf "top"))
      none [] (strOf "thought")).1 (by decide) rfl (by decide),
   (C7_thinking_fallback (strOf " ") none (some (strOf "top"))
      none [] (strOf "top")).2.1 (by decide) rfl (by decide),
   (C7_thinking_fallback [] none none (some (strOf "deep")) [] (strOf "deep")).2.2.1
      (by decide) rfl (by decide),
   (C7_thinking_fallback [] none none none [] []).2.2.2.1.mpr
      ⟨by decide, Or.inr (Or.inr ⟨rfl, rfl⟩)⟩,
   (C7_thinking_fallback [] none none (some []) (strOf "  ") []).2.2.2.2.mpr
      ⟨by decide, Or.inl ⟨[], rfl, by decide⟩⟩⟩

/-- C4 (amended): the self-hosted provider tries the conversational
transport first and returns its text when a 200 response carries
non-blank content; on an exception from the chat call or on a 200
response whose body fails chat handling (empty text, malformed
envelope), it falls back exactly once to the completion transport,
posting the flattened `System:`/`User:`/`Assistant:` prompt with the
final `Assistant:` cue; but on a non-200 chat HTTP status nothing is
raised, the completion transport is never invoked, and the call returns
Python `None`. -/
theorem C4_completion_fallback (msgs : List LLMMessage)
    (g : Str → Except PyErr (Nat × OllamaGenBody))
    (c : Str) (mth tth : Option Str) (e : PyErr) (status : Nat)
    (body : OllamaChatBody) (er : PyErr) (s u : Str) :
    (pyBlank c = false →
      runOllama msgs (.ok (200, { message := some { content := some c, thinking := mth },
                                  thinking := tth })) g =
        { result := .ok (some c), completionPrompt := none }) ∧
    ((runOllama msgs (.error e) g).completionPrompt = some (flattenPrompt msgs)) ∧
    (ollamaChatHandle body = .error er →
      (runOllama msgs (.ok (200, body)) g).completionPrompt = some (flattenPrompt msgs)) ∧
    (status ≠ 200 →
      runOllama msgs (.ok (status, body)) g =
        { result := .ok none, completionPrompt := none }) ∧
    (flattenPrompt [{ role := strOf "system", content := s },
                    { role := strOf "user", content := u }] =
      strOf "System: " ++ s ++ strOf "\n\nUser: " ++ u ++ strOf "\n\nAssistant:") := by
  refine ⟨?_, ?_, ?_, ?_, ?_⟩
  · intro hc
    simp [runOllama, ollamaChatHandle, hc, Except.map]
  · simp [runOllama]
  · intro h
    simp [runOllama, h, Except.map]
  · intro h
    simp [runOllama, h]
  · simp only [flattenPrompt, List.filterMap]
    rw [show ((strOf "system" == strOf "system") : Bool) = true from by decide]
    rw [show ((strOf "user" == strOf "system") : Bool) = false from by decide]
    rw [show ((strOf "user" == strOf "user") : Bool) = true from by decide]
    simp [joinSep, List.append_assoc]
    rw [← List.append_assoc (strOf "\n\n") (strOf "User: ")]
    rw [show strOf "\n\n" ++ strOf "User: " = strOf "\n\nUser: " from by decide]

/-- One-message conversation used in the C4 instances. -/
def msgs0 : List LLMMessage := [{ role := strOf "user", content := strOf "hi" }]

/-- A completion transport that always fails (never consulted in the
non-200 case). -/
def g0 : Str → Except PyErr (Nat × OllamaGenBody) := fun _ => .error .connectError

/-- A chat body with a missing `message` envelope. -/
def chatBodyMalformed : OllamaChatBody := { message := none, thinking := none }

/-- C4 counterexample: on a 500 chat status the claim demands one
completion-transport retry, but `_generate_ollama` performs no
completion call at all (`completionPrompt = none`) and returns Python
`None` (`result = .ok none`). -/
theorem C4_completion_fallback_cex :
    runOllama msgs0
      (.ok (500, { message := some { content := some (strOf "x"), thinking := none },
                   thinking := none })) g0 =
      { result := .ok none, completionPrompt := none } := by
  decide

/-- Concrete instantiation of the amended C4 theorem. -/
theorem C4_completion_fallback_witness :
    runOllama msgs0
      (.ok (200, { message := some { content := some (strOf "hello"), thinking := none },
                   thinking := none })) g0 =
      { result := .ok (some (strOf "hello")), completionPrompt := none } ∧
    (runOllama msgs0 (.error .timeout) g0).completionPrompt =
      some (flattenPrompt msgs0) ∧
    (runOllama msgs0 (.ok (200, chatBodyMalformed)) g0).completionPrompt =
      some (flattenPrompt msgs0) ∧
    runOllama msgs0 (.ok (500, chatBodyMalformed)) g0 =
      { result := .ok none, completionPrompt := none } ∧
    flattenPrompt [{ role := strOf "system", content := strOf "S" },
                   { role := strOf "user", content := strOf "U" }] =
      strOf "System: " ++ strOf "S" ++ strOf "\n\nUser: " ++ strOf "U" ++
        strOf "\n\nAssistant:" :=
  ⟨(C4_completion_fallback msgs0 g0 (strOf "hello") none none .timeout 500
      chatBodyMalformed .badEnvelope (strOf "S") (strOf "U")).1 (by decide),
   (C4_completion_fallback msgs0 g0 (strOf "hello") none none .timeout 500
      chatBodyMalformed .badEnvelope (strOf "S") (strOf "U")).2.1,
   (C4_completion_fallback msgs0 g0 (strOf "hello") none none .timeout 500
      chatBodyMalformed .badEnvelope (strOf "S") (strOf "U")).2.2.1 (by decide),
   (C4_completion_fallback msgs0 g0 (strOf "hello") none none .timeout 500
      chatBodyMalformed .badEnvelope (strOf "S") (strOf "U")).2.2.2.1 (by decide),
   (C4_completion_fallback msgs0 g0 (strOf "hello") none none .timeout 500
      chatBodyMalformed .badEnvelope (strOf "S") (strOf "U")).2.2.2.2⟩
theorem mkEnhanced_wc {m : List (Str × Json)} {e : EnhancedWordContent}
    (h : mkEnhanced m = .ok e) : getJStr m (strOf "word_cantonese") = .ok e.word_cantonese := by
  unfold mkEnhanced at h
  split at h
  · injection h with h2
    rw [← h2]
    simp_all
  · exact Except.noConfusion h

theorem requiredOk_wc {m : List (Str × Json)} (h : enhanceRequiredOk m = true)
    {s : Str} (hg : getJStr m (strOf "word_cantonese") = .ok s) : s ≠ [] := by
  have hmem : strOf "word_cantonese" ∈ enhanceRequiredFields := by decide
  have hall := (List.all_eq_true.mp h) _ hmem
  unfold getJStr at hg
  cases hl : jlookup m (strOf "word_cantonese") with
  | none => rw [hl] at hg; exact Except.noConfusion hg
  | some v =>
    rw [hl] at hall hg
    cases v with
    | str s' =>
      simp at hg
      subst hg
      simp [jtruthy] at hall
      simpa using hall
    | null => exact Except.noConfusion hg
    | bool b => exact Except.noConfusion hg
    | num n => exact Except.noConfusion hg
    | arr a => exact Except.noConfusion hg
    | obj o => exact Except.noConfusion hg

theorem enhanceAttempt_ok_wc {t : Str} {e : EnhancedWordContent}
    (h : enhanceAttempt t = .ok e) : e.word_cantonese ≠ [] := by
  unfold enhanceAttempt at h
  split at h
  · exact Except.noConfusion h
  · split at h
    · rename_i hr
      exact requiredOk_wc hr (mkEnhanced_wc h)
    · exact Except.noConfusion h
  · exact Except.noConfusion h

theorem enhanceWordGo_wc (gen : Nat → Except PyErr Str) (word : Str) (hw : word ≠ []) :
    ∀ n calls, (enhanceWordGo gen word n calls).1.word_cantonese ≠ [] := by
  intro n
  induction n with
  | zero => intro calls; simpa [enhanceWordGo, createFallbackContent] using hw
  | succ m ih =>
    intro calls
    rw [enhanceWordGo]
    cases gen calls with
    | error e => exact ih (calls + 1)
    | ok text =>
      show (match enhanceAttempt text with
            | Except.ok e => (e, calls + 1)
            | Except.error _ => enhanceWordGo gen word m (calls + 1)).1.word_cantonese ≠ []
      cases ha : enhanceAttempt text with
      | ok e => simpa using enhanceAttempt_ok_wc ha
      | error er => exact ih (calls + 1)

/-- C5 (amended): for a word entity with an empty secondary-language
field and a definition that is non-empty and non-generic (its lowercase
does not contain the marker), `enhance_word_content` populates
`word_cantonese` with a non-empty value and leaves the definition and
the English example unchanged; the four Cantonese-side fields are never
overwritten when already non-empty.  The `difficulty` field is the
exception: it is overwritten by the generated value whenever that value
is `easy`/`medium`/`hard`, even if it was non-empty before. -/
theorem C5_fill_only (w : WordRec) (gen : Nat → Except PyErr Str)
    (hword : w.word ≠ [])
    (hwc : truthyO w.word_cantonese = false)
    (hdef : definitionGeneric w.definition = false) :
    truthyO (enhanceWordContent w gen).word_cantonese = true ∧
    (enhanceWordContent w gen).definition = w.definition ∧
    (enhanceWordContent w gen).«example» = w.«example» ∧
    (truthyO w.jyutping = true → (enhanceWordContent w gen).jyutping = w.jyutping) ∧
    (truthyO w.definition_cantonese = true →
      (enhanceWordContent w gen).definition_cantonese = w.definition_cantonese) ∧
    (truthyO w.example_cantonese = true →
      (enhanceWordContent w gen).example_cantonese = w.example_cantonese) ∧
    (difficultyValid (enhanceWord gen w.word 3).1.difficulty = true →
      (enhanceWordContent w gen).difficulty = some (enhanceWord gen w.word 3).1.difficulty) := by
  have hrest : ∀ x : WordRec,
      (applyEnhancement w ((enhanceWord gen w.word 3).1)) =
        restoreIdentity w.word w.word_cantonese
          (restoreIdentity w.word w.word_cantonese
            (fillMissingFields w ((enhanceWord gen w.word 3).1))) := fun _ => rfl
  set e := (enhanceWord gen w.word 3).1 with he
  have hwcne : e.word_cantonese ≠ [] := by
    rw [he]
    exact enhanceWordGo_wc gen w.word hword 3 0
  have r1 := restoreIdentity_rest w.word w.word_cantonese
    (fillMissingFields w e)
  have r2 := restoreIdentity_rest w.word w.word_cantonese
    (restoreIdentity w.word w.word_cantonese (fillMissingFields w e))
  have hwcskip : (enhanceWordContent w gen).word_cantonese =
      (fillMissingFields w e).word_cantonese := by
    unfold enhanceWordContent applyEnhancement
    rw [restoreIdentity_wc_skip _ _ hwc, restoreIdentity_wc_skip _ _ hwc]
  refine ⟨?_, ?_, ?_, ?_, ?_, ?_, ?_⟩
  · rw [hwcskip, fillMissingFields_wc_fill e hwc]
    simpa [truthyO] using hwcne
  · show (applyEnhancement w e).definition = w.definition
    unfold applyEnhancement
    rw [r2.2.1, r1.2.1]
    exact (fillMissingFields_def_keep e hdef).1
  · show (applyEnhancement w e).«example» = w.«example»
    unfold applyEnhancement
    rw [r2.2.2.2.1, r1.2.2.2.1]
    exact (fillMissingFields_def_keep e hdef).2
  · intro hj
    show (applyEnhancement w e).jyutping = w.jyutping
    unfold applyEnhancement
    rw [r2.1, r1.1]
    exact fillMissingFields_jy_keep e hj
  · intro hd
    show (applyEnhancement w e).definition_cantonese = w.definition_cantonese
    unfold applyEnhancement
    rw [r2.2.2.1, r1.2.2.1]
    exact fillMissingFields_defc_keep e hd
  · intro hx
    show (applyEnhancement w e).example_cantonese = w.example_cantonese
    unfold applyEnhancement
    rw [r2.2.2.2.2.1, r1.2.2.2.2.1]
    exact fillMissingFields_exc_keep e hx
  · intro hv
    show (applyEnhancement w e).difficulty = some e.difficulty
    unfold applyEnhancement
    rw [r2.2.2.2.2.2, r1.2.2.2.2.2]
    exact fillMissingFields_difficulty e hv

/-- Word row with empty Cantonese text, a curated non-generic
definition, and a non-empty curated difficulty. -/
def c5w : WordRec :=
  { word := strOf "cat", word_cantonese := some [], jyutping := none,
    definition := some (strOf "A curated definition"), definition_cantonese := none,
    «example» := some (strOf "A curated example"), example_cantonese := none,
    difficulty := some (strOf "hard") }

/-- C5 counterexample: `difficulty` is non-empty and non-generic before
the call, yet `enhance_word_content` overwrites it with the generated
value ("easy", here produced by the deterministic fallback after three
failed attempts), so generated content does overwrite a non-empty,
non-generic field. -/
theorem C5_fill_only_cex :
    truthyO c5w.word_cantonese = false ∧
    definitionGeneric c5w.definition = false ∧
    c5w.difficulty = some (strOf "hard") ∧
    (enhanceWordContent c5w c1genFail).difficulty = some (strOf "easy") := by
  decide

/-- Concrete instantiation of the amended C5 theorem at `c5w` with the
always-failing transport (fallback content). -/
theorem C5_fill_only_witness :
    (c5w.word ≠ [] ∧ truthyO c5w.word_cantonese = false ∧
      definitionGeneric c5w.definition = false) ∧
    (truthyO (enhanceWordContent c5w c1genFail).word_cantonese = true ∧
     (enhanceWordContent c5w c1genFail).definition = c5w.definition ∧
     (enhanceWordContent c5w c1genFail).«example» = c5w.«example» ∧
     (truthyO c5w.jyutping = true →
       (enhanceWordContent c5w c1genFail).jyutping = c5w.jyutping) ∧
     (truthyO c5w.definition_cantonese = true →
       (enhanceWordContent c5w c1genFail).definition_cantonese = c5w.definition_cantonese) ∧
     (truthyO c5w.example_cantonese = true →
       (enhanceWordContent c5w c1genFail).example_cantonese = c5w.example_cantonese) ∧
     (difficultyValid (enhanceWord c1genFail c5w.word 3).1.difficulty = true →
       (enhanceWordContent c5w c1genFail).difficulty =
         some (enhanceWord c1genFail c5w.word 3).1.difficulty)) :=
  ⟨⟨by decide, by decide, by decide⟩,
   C5_fill_only c5w c1genFail (by decide) (by decide) (by decide)⟩


-- C8 lemma kit, batch 1: string-primitive facts used by the fence lemmas.

theorem pyLStrip_cons_nonws {c : Char} (hc : isSpaceB c = false) (l : Str) :
    pyLStrip (c :: l) = c :: l := by
  simp [pyLStrip, List.dropWhile_cons, hc]

theorem pyRStrip_append_nonws {c : Char} (hc : isSpaceB c = false) (l : Str) :
    pyRStrip (l ++ [c]) = l ++ [c] := by
  simp [pyRStrip, List.reverse_append, List.dropWhile_cons, hc]

theorem isPre_sharedPre (x p l : Str) : isPre (x ++ p) (x ++ l) = isPre p l := by
  induction x with
  | nil => rfl
  | cons c cs ih =>
    show isPre (c :: (cs ++ p)) (c :: (cs ++ l)) = _
    simp [isPre, ih]

theorem isPre_cons_false {a b : Char} (h : (a == b) = false) (p l : Str) :
    isPre (a :: p) (b :: l) = false := by
  simp [isPre]
  intro hab
  rw [hab] at h
  simp at h

theorem isPre_one {c : Char} {l : Str} (h : isPre [c] l = true) : ∃ m, l = c :: m := by
  cases l with
  | nil => simp [isPre] at h
  | cons b m =>
    simp [isPre] at h
    exact ⟨m, by rw [h]⟩

theorem bqFree_cons {c : Char} (hc : (c == '`') = false) {t : Str}
    (hb : bqFree t = true) : bqFree (c :: t) = true := by
  rw [bqFree, List.all_cons]
  rw [bqFree] at hb
  rw [hb, hc]
  rfl

theorem bqFree_reverse {t : Str} (hb : bqFree t = true) : bqFree t.reverse = true := by
  rw [bqFree, List.all_eq_true]
  rw [bqFree, List.all_eq_true] at hb
  intro x hx
  exact hb x (by simpa using hx)

theorem isPre_bt_of_bqFree {t : Str} (hb : bqFree t = true) (p : Str) :
    isPre ('`' :: p) t = false := by
  cases t with
  | nil => rfl
  | cons c l =>
    have hc : (c == '`') = false := by
      have := (List.all_eq_true.mp hb) c (by simp)
      simpa using this
    refine isPre_cons_false ?_ p l
    cases hcc : ('`' == c)
    · rfl
    · rw [show '`' = c from by simpa using hcc] at hc
      simp at hc

theorem findSub_cons_pos (pat : Str) (c : Char) (l : Str)
    (h : isPre pat (c :: l) = true) : findSub pat (c :: l) = some 0 := by
  simp [findSub, h]

theorem findSub_cons_neg (pat : Str) (c : Char) (l : Str)
    (h : isPre pat (c :: l) = false) :
    findSub pat (c :: l) = (findSub pat l).map (· + 1) := by
  simp [findSub, h]

-- C8 lemma kit, batch 2: the fenced wrappers and their basic computations.

/-- A JSON text wrapped in a tagged markdown fence. -/
def wrapTagged (t : Str) : Str := strOf "```json\n" ++ t ++ strOf "\n```"

/-- A JSON text wrapped in an untagged markdown fence. -/
def wrapPlain (t : Str) : Str := strOf "```\n" ++ t ++ strOf "\n```"

theorem pyStrip_wrapTagged (t : Str) : pyStrip (wrapTagged t) = wrapTagged t := by
  have h1 : pyLStrip (wrapTagged t) = wrapTagged t := by
    show pyLStrip ('`' :: ((strOf "``json\n" ++ t) ++ strOf "\n```")) = _
    rw [pyLStrip_cons_nonws (by decide)]
    rfl
  have h2 : wrapTagged t = ((strOf "```json\n" ++ t) ++ strOf "\n``") ++ ['`'] := by
    rw [wrapTagged, List.append_assoc, List.append_assoc,
      show strOf "\n```" = strOf "\n``" ++ ['`'] from by decide, ← List.append_assoc,
      ← List.append_assoc]
  rw [pyStrip, h1, h2, pyRStrip_append_nonws (by decide)]

theorem pyStrip_wrapPlain (t : Str) : pyStrip (wrapPlain t) = wrapPlain t := by
  have h1 : pyLStrip (wrapPlain t) = wrapPlain t := by
    show pyLStrip ('`' :: ((strOf "``\n" ++ t) ++ strOf "\n```")) = _
    rw [pyLStrip_cons_nonws (by decide)]
    rfl
  have h2 : wrapPlain t = ((strOf "```\n" ++ t) ++ strOf "\n``") ++ ['`'] := by
    rw [wrapPlain, List.append_assoc, List.append_assoc,
      show strOf "\n```" = strOf "\n``" ++ ['`'] from by decide, ← List.append_assoc,
      ← List.append_assoc]
  rw [pyStrip, h1, h2, pyRStrip_append_nonws (by decide)]

theorem isPre_json_nl3 (X : Str) :
    isPre (strOf "```json") ('`' :: '`' :: '`' :: '\n' :: X) = false := by
  show isPre (strOf "```" ++ strOf "json") (strOf "```" ++ ('\n' :: X)) = false
  rw [isPre_sharedPre]
  exact isPre_cons_false (by decide) _ _

theorem isPre_json_nl2 (X : Str) :
    isPre (strOf "```json") ('`' :: '`' :: '\n' :: X) = false := by
  show isPre (strOf "``" ++ strOf "`json") (strOf "``" ++ ('\n' :: X)) = false
  rw [isPre_sharedPre]
  exact isPre_cons_false (by decide) _ _

theorem isPre_json_nl1 (X : Str) :
    isPre (strOf "```json") ('`' :: '\n' :: X) = false := by
  show isPre (strOf "`" ++ strOf "``json") (strOf "`" ++ ('\n' :: X)) = false
  rw [isPre_sharedPre]
  exact isPre_cons_false (by decide) _ _

theorem isPre_json_nl0 (X : Str) : isPre (strOf "```json") ('\n' :: X) = false := by
  show isPre ('`' :: strOf "``json") ('\n' :: X) = false
  exact isPre_cons_false (by decide) _ _

theorem isPre_bt_nl0 (X : Str) : isPre (strOf "```") ('\n' :: X) = false := by
  show isPre ('`' :: strOf "``") ('\n' :: X) = false
  exact isPre_cons_false (by decide) _ _

theorem findSub_json_wrapPlain {t : Str} (hb : bqFree t = true) :
    findSub (strOf "```json") (wrapPlain t) = none := by
  show findSub (strOf "```json") ('`' :: '`' :: '`' :: '\n' :: (t ++ strOf "\n```")) = none
  rw [findSub_cons_neg _ _ _ (isPre_json_nl3 _),
    findSub_cons_neg _ _ _ (isPre_json_nl2 _),
    findSub_cons_neg _ _ _ (isPre_json_nl1 _),
    findSub_cons_neg _ _ _ (isPre_json_nl0 _),
    show strOf "```json" = '`' :: strOf "``json" from rfl,
    findSub_append_of_bqFree hb,
    show findSub ('`' :: strOf "``json") (strOf "\n```") = none from by decide]
  rfl

/-- The first fence-closing marker after the fence head sits just past `t`. -/
theorem findSub_bq_mid {t : Str} (hb : bqFree t = true) :
    findSub (strOf "```") ('\n' :: (t ++ strOf "\n```")) = some (t.length + 2) := by
  rw [findSub_cons_neg _ _ _ (isPre_bt_nl0 _),
    show strOf "```" = '`' :: strOf "``" from rfl,
    findSub_append_of_bqFree hb,
    show findSub ('`' :: strOf "``") (strOf "\n```") = some 1 from by decide]
  exact congrArg some (show 1 + t.length + 1 = t.length + 2 from by omega)

/-- Taking `t.length + 2` characters of the fence interior keeps `t` and the
two framing newlines. -/
theorem take_bq_mid (t : Str) :
    ('\n' :: (t ++ strOf "\n```")).take (t.length + 2) = '\n' :: (t ++ ['\n']) := by
  show ('\n' :: (t ++ strOf "\n```")).take (t.length + 1 + 1) = _
  rw [List.take_succ_cons, List.take_append_eq_append_take,
    List.take_of_length_le (by omega), show t.length + 1 - t.length = 1 from by omega]
  rfl

/-- Stripping the newline-framed interior recovers the stripped JSON text. -/
theorem pyStrip_bq_mid {t : Str} (hs : pyStrip t = t) :
    pyStrip ('\n' :: (t ++ ['\n'])) = t := by
  show pyStrip ((['\n'] ++ t) ++ ['\n']) = t
  exact pyStrip_frame hs (by decide) (by decide)

-- C8 lemma kit, batch 3: the word-enhancement extractor on wrapped input.

theorem weTail_eq {rt : Str} {start e : Nat}
    (h : pyFindFrom (strOf "```") rt start = some e) :
    weTail rt start = pyStrip (pySlice rt start e) := by
  unfold weTail
  rw [h]

theorem isPre_json_wrapTagged (t : Str) :
    isPre (strOf "```json") (wrapTagged t) = true := by
  show isPre (strOf "```json") (strOf "```json" ++ (('\n' :: t) ++ strOf "\n```")) = true
  exact isPre_append_self _ _

theorem findSub_json_wrapTagged (t : Str) :
    findSub (strOf "```json") (wrapTagged t) = some 0 := by
  show findSub (strOf "```json") ('`' :: ((strOf "``json\n" ++ t) ++ strOf "\n```")) = some 0
  exact findSub_cons_pos _ _ _ (isPre_json_wrapTagged t)

theorem isPre_bt_wrapPlain (t : Str) :
    isPre (strOf "```") (wrapPlain t) = true := by
  show isPre (strOf "```") (strOf "```" ++ (('\n' :: t) ++ strOf "\n```")) = true
  exact isPre_append_self _ _

theorem findSub_bt_wrapPlain (t : Str) :
    findSub (strOf "```") (wrapPlain t) = some 0 := by
  show findSub (strOf "```") ('`' :: ((strOf "``\n" ++ t) ++ strOf "\n```")) = some 0
  exact findSub_cons_pos _ _ _ (isPre_bt_wrapPlain t)

theorem weFence_wrapTagged {t : Str} (hb : bqFree t = true) (hs : pyStrip t = t) :
    weFence (wrapTagged t) = t := by
  have hf := findSub_json_wrapTagged t
  have hc : containsSub (strOf "```json") (wrapTagged t) = true := by
    rw [containsSub, hf]; rfl
  have hdrop : (wrapTagged t).drop 7 = '\n' :: (t ++ strOf "\n```") := rfl
  have hpf : pyFindFrom (strOf "```") (wrapTagged t) 7 = some (t.length + 9) := by
    rw [pyFindFrom, hdrop, findSub_bq_mid hb]
    exact congrArg some (show t.length + 2 + 7 = t.length + 9 from by omega)
  have hsl : pySlice (wrapTagged t) 7 (t.length + 9) =
      ('\n' :: (t ++ strOf "\n```")).take (t.length + 2) := by
    show ((wrapTagged t).drop 7).take (t.length + 9 - 7) = _
    rw [hdrop, show t.length + 9 - 7 = t.length + 2 from by omega]
  unfold weFence
  rw [if_pos hc, hf]
  simp only [Option.getD_some]
  rw [show (0 : Nat) + 7 = 7 from rfl, weTail_eq hpf, hsl, take_bq_mid,
    pyStrip_bq_mid hs]

theorem weFence_wrapPlain {t : Str} (hb : bqFree t = true) (hs : pyStrip t = t) :
    weFence (wrapPlain t) = t := by
  have hcj : containsSub (strOf "```json") (wrapPlain t) = false := by
    rw [containsSub, findSub_json_wrapPlain hb]; rfl
  have hf := findSub_bt_wrapPlain t
  have hc : containsSub (strOf "```") (wrapPlain t) = true := by
    rw [containsSub, hf]; rfl
  have hdrop : (wrapPlain t).drop 3 = '\n' :: (t ++ strOf "\n```") := rfl
  have hpf : pyFindFrom (strOf "```") (wrapPlain t) 3 = some (t.length + 5) := by
    rw [pyFindFrom, hdrop, findSub_bq_mid hb]
    exact congrArg some (show t.length + 2 + 3 = t.length + 5 from by omega)
  have hsl : pySlice (wrapPlain t) 3 (t.length + 5) =
      ('\n' :: (t ++ strOf "\n```")).take (t.length + 2) := by
    show ((wrapPlain t).drop 3).take (t.length + 5 - 3) = _
    rw [hdrop, show t.length + 5 - 3 = t.length + 2 from by omega]
  unfold weFence
  rw [if_neg (by simp [hcj]), if_pos hc, hf]
  simp only [Option.getD_some]
  rw [show (0 : Nat) + 3 = 3 from rfl, weTail_eq hpf, hsl, take_bq_mid,
    pyStrip_bq_mid hs]

theorem weFence_direct {t : Str} (hb : bqFree t = true) : weFence t = t := by
  have hcj : containsSub (strOf "```json") t = false := containsSub_false_of_bqFree hb _
  have hcb : containsSub (strOf "```") t = false := containsSub_false_of_bqFree hb _
  unfold weFence
  rw [if_neg (by simp [hcj]), if_neg (by simp [hcb])]

theorem weBraceStart_pre {t : Str} (hpre : isPre (strOf "\x7b") t = true) :
    weBraceStart t = t := by
  unfold weBraceStart
  rw [if_pos hpre]

theorem weBraceEnd_post {t : Str} (hpost : pyEndsWith (strOf "\x7d") t = true) :
    weBraceEnd t = t := by
  unfold weBraceEnd
  rw [if_pos hpost]

theorem extractWE_wrapTagged {t : Str} (hb : bqFree t = true) (hs : pyStrip t = t)
    (hpre : isPre (strOf "\x7b") t = true) (hpost : pyEndsWith (strOf "\x7d") t = true) :
    extractWE (wrapTagged t) = t := by
  rw [extractWE, pyStrip_wrapTagged, weFence_wrapTagged hb hs,
    weBraceStart_pre hpre, weBraceEnd_post hpost, hs]

theorem extractWE_wrapPlain {t : Str} (hb : bqFree t = true) (hs : pyStrip t = t)
    (hpre : isPre (strOf "\x7b") t = true) (hpost : pyEndsWith (strOf "\x7d") t = true) :
    extractWE (wrapPlain t) = t := by
  rw [extractWE, pyStrip_wrapPlain, weFence_wrapPlain hb hs,
    weBraceStart_pre hpre, weBraceEnd_post hpost, hs]

theorem extractWE_direct {t : Str} (hb : bqFree t = true) (hs : pyStrip t = t)
    (hpre : isPre (strOf "\x7b") t = true) (hpost : pyEndsWith (strOf "\x7d") t = true) :
    extractWE t = t := by
  rw [extractWE, hs, weFence_direct hb, weBraceStart_pre hpre,
    weBraceEnd_post hpost, hs]

-- C8 lemma kit, batch 4: the sentence-generator fence stripper.

theorem pyEndsWith_bt_mid (t : Str) :
    pyEndsWith (strOf "```") ('\n' :: (t ++ strOf "\n```")) = true := by
  rw [pyEndsWith, show (strOf "```").reverse = strOf "```" from by decide,
    List.reverse_cons, List.reverse_append,
    show (strOf "\n```").reverse = strOf "```" ++ ['\n'] from by decide,
    List.append_assoc, List.append_assoc]
  exact isPre_append_self _ _

theorem pyEndsWith_bt_of_bqFree {t : Str} (hb : bqFree t = true) :
    pyEndsWith (strOf "```") t = false := by
  rw [pyEndsWith, show (strOf "```").reverse = strOf "```" from by decide]
  exact isPre_bt_of_bqFree (bqFree_reverse hb) (strOf "``")

theorem len_bq_mid (t : Str) :
    ('\n' :: (t ++ strOf "\n```")).length = t.length + 5 := by
  simp only [List.length_cons, List.length_append,
    show (strOf "\n```").length = 4 from by decide]

theorem sentStrip3_mid (t : Str) :
    sentStrip3 ('\n' :: (t ++ strOf "\n```")) = '\n' :: (t ++ ['\n']) := by
  unfold sentStrip3
  rw [if_pos (pyEndsWith_bt_mid t), len_bq_mid,
    show t.length + 5 - 3 = t.length + 2 from by omega, take_bq_mid]

theorem extractSent_wrapTagged {t : Str} (hb : bqFree t = true) (hs : pyStrip t = t) :
    extractSent (wrapTagged t) = t := by
  have h1 : sentStrip1 (wrapTagged t) = '\n' :: (t ++ strOf "\n```") := by
    unfold sentStrip1
    rw [if_pos (isPre_json_wrapTagged t)]
    rfl
  have h2 : sentStrip2 ('\n' :: (t ++ strOf "\n```")) = '\n' :: (t ++ strOf "\n```") := by
    unfold sentStrip2
    rw [if_neg (by simp [isPre_bt_nl0])]
  rw [extractSent, pyStrip_wrapTagged, h1, h2, sentStrip3_mid, pyStrip_bq_mid hs]

theorem extractSent_wrapPlain {t : Str} (hb : bqFree t = true) (hs : pyStrip t = t) :
    extractSent (wrapPlain t) = t := by
  have h1 : sentStrip1 (wrapPlain t) = wrapPlain t := by
    unfold sentStrip1
    rw [if_neg (by simp [show isPre (strOf "```json") (wrapPlain t) = false from
      isPre_json_nl3 (t ++ strOf "\n```")])]
  have h2 : sentStrip2 (wrapPlain t) = '\n' :: (t ++ strOf "\n```") := by
    unfold sentStrip2
    rw [if_pos (isPre_bt_wrapPlain t)]
    rfl
  rw [extractSent, pyStrip_wrapPlain, h1, h2, sentStrip3_mid, pyStrip_bq_mid hs]

theorem extractSent_direct {t : Str} (hb : bqFree t = true) (hs : pyStrip t = t) :
    extractSent t = t := by
  have h1 : sentStrip1 t = t := by
    unfold sentStrip1
    rw [if_neg (by simp [show isPre (strOf "```json") t = false from
      isPre_bt_of_bqFree hb (strOf "``json")])]
  have h2 : sentStrip2 t = t := by
    unfold sentStrip2
    rw [if_neg (by simp [show isPre (strOf "```") t = false from
      isPre_bt_of_bqFree hb (strOf "``")])]
  have h3 : sentStrip3 t = t := by
    unfold sentStrip3
    rw [if_neg (by simp [pyEndsWith_bt_of_bqFree hb])]
  rw [extractSent, hs, h1, h2, h3, hs]

-- C8 lemma kit, batch 5: `str.split` over fenced text and the story pipeline.

theorem pySplitAux_sep (sep b acc : Str) (hsep : sep ≠ []) :
    pySplitAux sep (sep ++ b) acc = acc.reverse :: pySplitAux sep b [] := by
  cases sep with
  | nil => exact absurd rfl hsep
  | cons c s =>
    show pySplitAux (c :: s) (c :: (s ++ b)) acc = _
    rw [pySplitAux, if_pos (show isPre (c :: s) (c :: (s ++ b)) = true from
      isPre_append_self (c :: s) b)]
    rw [show (c :: s).length - 1 = s.length from by simp, List.drop_left]

theorem pySplitAux_bq_skip {a : Str} (ha : bqFree a = true) (p l acc : Str) :
    pySplitAux ('`' :: p) (a ++ l) acc = pySplitAux ('`' :: p) l (a.reverse ++ acc) := by
  induction a generalizing acc with
  | nil => simp
  | cons c cs ih =>
    have hc : (c == '`') = false := by
      have := (List.all_eq_true.mp ha) c (by simp)
      simpa using this
    have hcs : bqFree cs = true := by
      refine List.all_eq_true.mpr ?_
      intro x hx
      exact (List.all_eq_true.mp ha) x (by simp [hx])
    have hpre : isPre ('`' :: p) (c :: (cs ++ l)) = false := by
      simp [isPre]
      intro h
      rw [h] at hc
      simp at hc
    show pySplitAux ('`' :: p) (c :: (cs ++ l)) acc = _
    rw [pySplitAux, if_neg (by simp [hpre]), ih hcs]
    simp [List.append_assoc]

theorem pySplitAux_no_match {sep : Str} : ∀ {l : Str}, findSub sep l = none →
    ∀ acc, pySplitAux sep l acc = [acc.reverse ++ l] := by
  intro l
  induction l with
  | nil =>
    intro _ acc
    simp [pySplitAux]
  | cons c rest ih =>
    intro h acc
    by_cases hp : isPre sep (c :: rest) = true
    · rw [findSub_cons_pos _ _ _ hp] at h
      exact absurd h (by simp)
    · have hp' : isPre sep (c :: rest) = false := by
        revert hp
        cases isPre sep (c :: rest) <;> simp
      have hrest : findSub sep rest = none := by
        rw [findSub_cons_neg _ _ _ hp'] at h
        cases hfr : findSub sep rest
        · rfl
        · rw [hfr] at h
          simp at h
      rw [pySplitAux, if_neg (by simp [hp']), ih hrest]
      simp

/-- Splitting the fence interior plus closing marker at the marker. -/
theorem pySplit_bt_mid {t : Str} (hb : bqFree t = true) :
    pySplit (strOf "```") (('\n' :: t) ++ strOf "\n```") =
      ['\n' :: (t ++ ['\n']), []] := by
  show pySplitAux ('`' :: strOf "``") (('\n' :: t) ++ strOf "\n```") [] = _
  rw [pySplitAux_bq_skip (bqFree_cons (by decide) hb),
    show strOf "\n```" = ['\n'] ++ strOf "```" from by decide,
    pySplitAux_bq_skip (show bqFree ['\n'] = true from by decide),
    show strOf "```" = ('`' :: strOf "``") ++ ([] : Str) from by decide,
    pySplitAux_sep _ _ _ (by decide),
    show pySplitAux ('`' :: strOf "``") [] [] = [[]] from by simp [pySplitAux]]
  simp

theorem pySplit_json_wrapTagged {t : Str} (hb : bqFree t = true) :
    pySplit (strOf "```json") (wrapTagged t) =
      [[], ('\n' :: t) ++ strOf "\n```"] := by
  show pySplitAux (strOf "```json")
    (strOf "```json" ++ (('\n' :: t) ++ strOf "\n```")) [] = _
  rw [pySplitAux_sep _ _ _ (by decide),
    show pySplitAux (strOf "```json") (('\n' :: t) ++ strOf "\n```") [] =
        [('\n' :: t) ++ strOf "\n```"] from by
      show pySplitAux ('`' :: strOf "``json") (('\n' :: t) ++ strOf "\n```") [] = _
      rw [pySplitAux_bq_skip (bqFree_cons (by decide) hb),
        pySplitAux_no_match
          (show findSub ('`' :: strOf "``json") (strOf "\n```") = none from by decide) _]
      simp]
  simp

theorem storyFenceStrip_wrapTagged {t : Str} (hb : bqFree t = true)
    (hs : pyStrip t = t) : storyFenceStrip (wrapTagged t) = t := by
  have hc : containsSub (strOf "```json") (wrapTagged t) = true := by
    rw [containsSub, findSub_json_wrapTagged t]
    rfl
  unfold storyFenceStrip
  rw [if_pos hc, pySplit_json_wrapTagged hb,
    show ([[], ('\n' :: t) ++ strOf "\n```"] : List Str).getD 1 [] =
      ('\n' :: t) ++ strOf "\n```" from rfl,
    pySplit_bt_mid hb,
    show (['\n' :: (t ++ ['\n']), []] : List Str).getD 0 [] =
      '\n' :: (t ++ ['\n']) from rfl]
  exact pyStrip_bq_mid hs

theorem storyFenceStrip_wrapPlain {t : Str} (hb : bqFree t = true)
    (hs : pyStrip t = t) (hpre : isPre (strOf "\x7b") t = true) :
    storyFenceStrip (wrapPlain t) = t := by
  have hcj : containsSub (strOf "```json") (wrapPlain t) = false := by
    rw [containsSub, findSub_json_wrapPlain hb]
    rfl
  have hcb : containsSub (strOf "```") (wrapPlain t) = true := by
    rw [containsSub, findSub_bt_wrapPlain t]
    rfl
  have hsp : pySplit (strOf "```") (wrapPlain t) =
      [[], '\n' :: (t ++ ['\n']), []] := by
    show pySplitAux (strOf "```")
      (strOf "```" ++ (('\n' :: t) ++ strOf "\n```")) [] = _
    rw [pySplitAux_sep _ _ _ (by decide),
      show pySplitAux (strOf "```") (('\n' :: t) ++ strOf "\n```") [] =
        ['\n' :: (t ++ ['\n']), []] from pySplit_bt_mid hb]
    rfl
  obtain ⟨m, hm⟩ := isPre_one (show isPre ['\x7b'] t = true from hpre)
  unfold storyFenceStrip
  rw [if_neg (by simp [hcj]), if_pos hcb]
  simp only [hsp]
  rw [if_pos (show ([[], '\n' :: (t ++ ['\n']), []] : List Str).length ≥ 3 from
    by simp)]
  simp only [show ([[], '\n' :: (t ++ ['\n']), []] : List Str).getD 1 [] =
    '\n' :: (t ++ ['\n']) from rfl, pyStrip_bq_mid hs]
  rw [if_neg]
  rw [hm]
  simp [show isPre (strOf "json") ('\x7b' :: m) = false from
      isPre_cons_false (by decide) _ _,
    show isPre (strOf "JSON") ('\x7b' :: m) = false from
      isPre_cons_false (by decide) _ _]

theorem storyFenceStrip_direct {t : Str} (hb : bqFree t = true) :
    storyFenceStrip t = t := by
  have hcj : containsSub (strOf "```json") t = false := containsSub_false_of_bqFree hb _
  have hcb : containsSub (strOf "```") t = false := containsSub_false_of_bqFree hb _
  unfold storyFenceStrip
  rw [if_neg (by simp [hcj]), if_neg (by simp [hcb])]

theorem parseStoryJson_wrapTagged {t : Str} {d : Json} (hb : bqFree t = true)
    (hs : pyStrip t = t) (hd : parseJson t = some d) :
    parseStoryJson (wrapTagged t) = .ok d := by
  unfold parseStoryJson
  rw [storyFenceStrip_wrapTagged hb hs, hd]

theorem parseStoryJson_wrapPlain {t : Str} {d : Json} (hb : bqFree t = true)
    (hs : pyStrip t = t) (hpre : isPre (strOf "\x7b") t = true)
    (hd : parseJson t = some d) :
    parseStoryJson (wrapPlain t) = .ok d := by
  unfold parseStoryJson
  rw [storyFenceStrip_wrapPlain hb hs hpre, hd]

theorem parseStoryJson_direct {t : Str} {d : Json} (hb : bqFree t = true)
    (hd : parseJson t = some d) : parseStoryJson t = .ok d := by
  unfold parseStoryJson
  rw [storyFenceStrip_direct hb, hd]

-- Claim C8: fence-stripping idempotence of the recovery pipelines.

/-- A stripped, backtick-free JSON object text used to exercise the
fence-stripping lemmas on a concrete input. -/
def c8good : Str := strOf "\x7b\"a\": \"b\"\x7d"

/-- The document `c8good` parses to. -/
def c8doc : Json := Json.obj [(strOf "a", Json.str (strOf "b"))]

/-- A well-formed JSON object text that itself contains a triple-backtick
sequence inside a string value. -/
def c8bad : Str := strOf "\x7b\"a\": \"```\"\x7d"

/-- C8 counterexample: the claim fails as stated for well-formed JSON
containing a triple backtick inside a string. `c8bad` parses directly,
but after wrapping it in a tagged fence the word-enhancement extractor
cuts at the inner backticks and the result no longer parses at all, so
the pipeline does not yield the same document as direct parsing. -/
theorem C8_fence_strip_cex :
    (parseJson c8bad).isSome = true ∧
    (parseJson (extractWE (wrapTagged c8bad))).isSome = false := by
  constructor
  · decide
  · decide

/-- C8 (corrected): fence-stripping idempotence holds for backtick-free
JSON texts. For every stripped, backtick-free text `t` that starts with
an opening brace, ends with a closing brace and parses as JSON document
`d`: the word-enhancement extractor and the sentence-generator extractor
return `t` itself whether `t` arrives wrapped in a tagged fence, wrapped
in an untagged fence, or bare — so parsing their output equals parsing
the un-wrapped text — and the story parser returns exactly `.ok d` on
all three shapes. -/
theorem C8_fence_strip_idempotent (t : Str) (d : Json)
    (hb : bqFree t = true) (hs : pyStrip t = t)
    (hpre : isPre (strOf "\x7b") t = true)
    (hpost : pyEndsWith (strOf "\x7d") t = true)
    (hd : parseJson t = some d) :
    (extractWE (wrapTagged t) = t ∧ extractWE (wrapPlain t) = t ∧
      extractWE t = t) ∧
    (extractSent (wrapTagged t) = t ∧ extractSent (wrapPlain t) = t ∧
      extractSent t = t) ∧
    (parseStoryJson (wrapTagged t) = .ok d ∧ parseStoryJson (wrapPlain t) = .ok d ∧
      parseStoryJson t = .ok d) :=
  ⟨⟨extractWE_wrapTagged hb hs hpre hpost, extractWE_wrapPlain hb hs hpre hpost,
    extractWE_direct hb hs hpre hpost⟩,
   ⟨extractSent_wrapTagged hb hs, extractSent_wrapPlain hb hs,
    extractSent_direct hb hs⟩,
   ⟨parseStoryJson_wrapTagged hb hs hd, parseStoryJson_wrapPlain hb hs hpre hd,
    parseStoryJson_direct hb hd⟩⟩

/-- C8 witness: the corrected theorem applied at the concrete JSON object
text `c8good`, discharging every hypothesis by evaluation. -/
theorem C8_fence_strip_idempotent_witness :
    (bqFree c8good = true ∧ pyStrip c8good = c8good ∧
      isPre (strOf "\x7b") c8good = true ∧
      pyEndsWith (strOf "\x7d") c8good = true ∧
      parseJson c8good = some c8doc) ∧
    extractWE (wrapTagged c8good) = c8good ∧
    parseStoryJson (wrapPlain c8good) = .ok c8doc :=
  ⟨⟨by decide, by decide, by decide, by decide, by rfl⟩,
   (C8_fence_strip_idempotent c8good c8doc (by decide) (by decide) (by decide)
     (by decide) (by rfl)).1.1,
   (C8_fence_strip_idempotent c8good c8doc (by decide) (by decide) (by decide)
     (by decide) (by rfl)).2.2.2.1⟩
